import Mathlib

/-!
Verification of the "In Vino Morte" game server engine.

This file gives a shallow embedding of the server-side room engine
(`src/server/src/Room.ts`), the websocket dispatch layer
(`src/server/src/handlers/wsHandlers.ts`) and the room registry
(`src/server/src/managers/RoomManager.ts`), and proves the specified
properties about it.

Modelling conventions:
* JS `Map`s (insertion ordered) are association lists; the derived
  `seatToPlayerId` map is modelled by looking the seat up in the player
  list (the TS code keeps the two structures in sync at every mutation).
* `cardBySeat` is an association list `Int × CardType`; only `get`,
  `set` and `clear` are ever used on it in the source, so an absent key
  and a key mapped to `undefined` are observationally equal and both are
  modelled by absence.
* Wall-clock instants are `Nat` milliseconds passed in explicitly as
  `now`; `setTimeout` continuations are modelled as separate engine
  steps (`Op.dealingTimer`, `Op.roundEndTimer`, ...) exactly where an
  intermediate state is observable, and inlined where the source runs
  them unconditionally back-to-back.
* `Math.random` draws (dealer pick, shuffles, coin flips) are oracle
  parameters of the corresponding operations.
* Every broadcast / send in the source is modelled as an `Event`
  appended to the step's event list; the event payloads carry exactly
  the fields the source serializes (cf. `shared/src/schemas.ts`).
-/

namespace InVinoMorte

/-- Card types, from `shared`: `type CardType = 'SAFE' | 'DOOM'`. -/
inductive CardType
  | SAFE
  | DOOM
deriving DecidableEq, Repr

/-- Game phases, from `shared` (`GamePhase`). -/
inductive Phase
  | LOBBY
  | DEALER_SETUP
  | DEALING
  | TURNS
  | AWAITING_REVEAL
  | FINAL_REVEAL
  | ROUND_END
  | GAME_END
deriving DecidableEq, Repr

/-- Room status: `'LOBBY' | 'IN_GAME'`. -/
inductive Status
  | LOBBY
  | IN_GAME
deriving DecidableEq, Repr

/-- Room settings (`RoomSettings` in `shared`). -/
structure RoomSettings where
  turnTimer : Nat
  cheeseEnabled : Bool
  cheeseCount : Nat
deriving DecidableEq, Repr

/-- Player record (`Player` in `shared`). Seats are `Int` because the
engine uses `-1` as a sentinel seat value. -/
structure Player where
  id : String
  name : String
  avatarId : Nat
  seat : Int
  alive : Bool
  connected : Bool
  ready : Bool
  hasCheese : Bool
deriving DecidableEq, Repr

/-- Per-player connection record (`PlayerConnection` in `Room.ts`).
The socket is modelled by an optional socket identifier. -/
structure PlayerConn where
  player : Player
  ws : Option Nat
  token : String
  sessionId : String
  disconnectedAt : Option Nat
deriving DecidableEq, Repr

/-- Game state (`GameState` in `shared`). -/
structure GameState where
  phase : Phase
  dealerSeat : Int
  turnSeat : Int
  roundIndex : Nat
  aliveSeats : List Int
  facedownSeats : List Int
  actedSeats : List Int
  deadlineTs : Option Nat
  cheeseSeats : List Int
deriving DecidableEq, Repr

/-- The per-room engine state (fields of class `Room`).
`pendingNextDealer` models the value captured by the closure that
`startNewRound` schedules with `setTimeout` (the next dealer seat is
computed at schedule time and applied when the timer fires). -/
structure Room where
  id : String
  joinCode : String
  hostId : String
  settings : RoomSettings
  players : List PlayerConn
  status : Status
  game : Option GameState
  cardBySeat : List (Int × CardType)
  rematchVotes : List Int
  isVotingPhase : Bool
  pendingNextDealer : Option Int
deriving DecidableEq, Repr

/-- The serialized room state (`Room.getRoomState`), as sent in STATE
and derived payloads. It contains player records but no card data. -/
structure RoomState where
  id : String
  joinCode : String
  hostId : String
  settings : RoomSettings
  players : List Player
  status : Status
deriving DecidableEq, Repr

/-- Outbound server events. Each constructor carries exactly the data
the source puts into the corresponding JSON payload (see
`shared/src/schemas.ts` and the `broadcast`/`send` sites in `Room.ts`
and `wsHandlers.ts`).  Only `reveal` has a field of type `CardType`;
`reveal`'s card is optional because `cardBySeat.get(seat)!` can be
`undefined` in the source, in which case `JSON.stringify` drops the
field. -/
inductive Event
  | playerReconnected (seat : Int)
  | playerLeft (seat : Int) (reason : String)
  | lobbyUpdate (players : List Player) (settings : RoomSettings)
  | phase (ph : Phase) (dealerSeat turnSeat : Int) (deadlineTs : Option Nat)
      (aliveSeats : List Int)
  | dealt (aliveSeats : List Int)
  | cheeseUpdate (cheeseSeats : List Int)
  | reveal (seat : Int) (cardType : Option CardType)
  | elim (seat : Int)
  | swapEv (fromSeat toSeat : Int)
  | cheeseStolen (fromSeat toSeat : Int)
  | roundEnd (nextDealerSeat : Int)
  | gameEnd (winnerSeat : Int)
  | voteUpdate (votedYes : List Int) (requiredVotes : Nat) (votePhase : String)
  | dealerPreview (seat : Int) (assigned : Bool)
  | stateSnapshot (room : RoomState) (game : Option GameState)
      (yourSeat : Int) (yourPlayerId : String)
  | errorEv (code : String)
  | pong (t : Nat)
deriving DecidableEq, Repr

/-- All card identities contained in an event's payload.  By
construction of `Event` (which mirrors the serialized payload types),
only a REVEAL payload contains a card identity. -/
def eventCards : Event → List (Int × CardType)
  | Event.reveal seat (some c) => [(seat, c)]
  | _ => []

-- ==========================================
-- Shared constants (`shared/src/constants.ts`)
-- ==========================================

def MIN_PLAYERS : Nat := 3
def MAX_PLAYERS : Nat := 8
def DEFAULT_TURN_TIMER : Nat := 30
def RECONNECT_TIMEOUT : Nat := 60
def DEFAULT_CHEESE_COUNT : Nat := 2

/-- Modelled from the spec: the constant `DISCONNECTED_TURN_TIMEOUT` is
imported by `Room.ts` from the shared constants module, but the version
of that module defining it is not among the sources; the spec describes
it as "a shorter `DISCONNECTED_TURN_TIMEOUT`" with example value 5
seconds. -/
def DISCONNECTED_TURN_TIMEOUT : Nat := 5

-- ==========================================
-- List helpers mirroring JS idioms
-- ==========================================

/-- Lookup in an association list (JS `Map.get`). -/
def lookupCard : List (Int × CardType) → Int → Option CardType
  | [], _ => none
  | (k, v) :: rest, seat => if k = seat then some v else lookupCard rest seat

/-- JS `Map.set`: update the binding if present, else append. -/
def setCard : List (Int × CardType) → Int → CardType → List (Int × CardType)
  | [], seat, c => [(seat, c)]
  | (k, v) :: rest, seat, c =>
    if k = seat then (k, c) :: rest else (k, v) :: setCard rest seat c

/-- JS `Map.delete` (used to model `set` to `undefined`). -/
def eraseCard (m : List (Int × CardType)) (seat : Int) : List (Int × CardType) :=
  m.filter (fun kv => kv.1 ≠ seat)

/-- Setting a key to an optional value: `none` behaves like deleting the
key, since the source only ever reads `cardBySeat` through `get`. -/
def setCardOpt (m : List (Int × CardType)) (seat : Int) : Option CardType → List (Int × CardType)
  | none => eraseCard m seat
  | some c => setCard m seat c

/-- Insertion into a sorted list of seats. -/
def insertSorted (x : Int) : List Int → List Int
  | [] => [x]
  | y :: ys => if x ≤ y then x :: y :: ys else y :: insertSorted x ys

/-- Ascending sort of seat numbers (JS `.sort((a, b) => a - b)`). -/
def sortInts : List Int → List Int
  | [] => []
  | x :: xs => insertSorted x (sortInts xs)

/-- Generic string lookup in an association list. -/
def lookupStr {α : Type} : List (String × α) → String → Option α
  | [], _ => none
  | (k, v) :: rest, key => if k = key then some v else lookupStr rest key

-- ==========================================
-- Room helpers (`Room.ts`)
-- ==========================================

/-- `Room.getAliveSeats`: seats of alive players, ascending. -/
def getAliveSeats (r : Room) : List Int :=
  sortInts ((r.players.filter (fun c => c.player.alive)).map (fun c => c.player.seat))

/-- `Room.getConnectedSeats`. -/
def getConnectedSeats (r : Room) : List Int :=
  (r.players.filter (fun c => c.player.connected)).map (fun c => c.player.seat)

/-- Lookup of a player's connection record by seat; models
`seatToPlayerId.get(seat)` followed by `players.get(playerId)` (the two
maps are kept in sync by every mutation site in the source). -/
def findConnBySeat (r : Room) (seat : Int) : Option PlayerConn :=
  r.players.find? (fun c => c.player.seat = seat)

/-- Lookup of a player's connection record by player id (`players.get`). -/
def findConnById (r : Room) (playerId : String) : Option PlayerConn :=
  r.players.find? (fun c => c.player.id = playerId)

/-- `Room.isPlayerAlive`. -/
def isPlayerAlive (r : Room) (seat : Int) : Bool :=
  match findConnBySeat r seat with
  | some c => c.player.alive
  | none => false

/-- `Room.getPlayerBySeat`. -/
def getPlayerBySeat (r : Room) (seat : Int) : Option Player :=
  (findConnBySeat r seat).map (fun c => c.player)

/-- `Room.getNextAliveSeat`: first alive seat strictly greater than
`currentSeat` in ascending order, wrapping to the smallest alive seat;
`currentSeat` itself if nobody is alive. -/
def getNextAliveSeat (r : Room) (currentSeat : Int) : Int :=
  let aliveSeats := getAliveSeats r
  if aliveSeats.isEmpty then currentSeat
  else
    match aliveSeats.find? (fun s => decide (currentSeat < s)) with
    | some s => s
    | none => aliveSeats.headD currentSeat

/-- Update (in place) the first connection whose player id matches. -/
def updateConnById (players : List PlayerConn) (playerId : String)
    (f : PlayerConn → PlayerConn) : List PlayerConn :=
  players.map (fun c => if c.player.id = playerId then f c else c)

/-- Update (in place) the first connection whose seat matches; models a
`seatToPlayerId` lookup followed by a mutation of that player. -/
def updateConnBySeat (players : List PlayerConn) (seat : Int)
    (f : PlayerConn → PlayerConn) : List PlayerConn :=
  players.map (fun c => if c.player.seat = seat then f c else c)

/-- Modify the game state when present. -/
def mapGame (r : Room) (f : GameState → GameState) : Room :=
  { r with game := r.game.map f }

/-- `Room.getRoomState`. -/
def getRoomState (r : Room) : RoomState :=
  { id := r.id
    joinCode := r.joinCode
    hostId := r.hostId
    settings := r.settings
    players := r.players.map (fun c => c.player)
    status := r.status }

/-- `Room.broadcastPhase` payload. -/
def phaseEvent (r : Room) : List Event :=
  match r.game with
  | none => []
  | some g => [Event.phase g.phase g.dealerSeat g.turnSeat g.deadlineTs g.aliveSeats]

/-- `Room.broadcastLobbyUpdate` payload. -/
def lobbyUpdateEvent (r : Room) : Event :=
  Event.lobbyUpdate (r.players.map (fun c => c.player)) r.settings

/-- `Room.broadcastVoteUpdate` payload. -/
def voteUpdateEvent (r : Room) : Event :=
  Event.voteUpdate r.rematchVotes (getConnectedSeats r).length "VOTING"

/-- `Room.getFullState` payload (the STATE snapshot). -/
def fullStateEvent (r : Room) (playerId : String) : Event :=
  Event.stateSnapshot (getRoomState r) r.game
    (match findConnById r playerId with
     | some c => c.player.seat
     | none => -1)
    playerId

/-- Seat of a player as computed by `getFullState(...).yourSeat`. -/
def yourSeat (r : Room) (playerId : String) : Int :=
  match findConnById r playerId with
  | some c => c.player.seat
  | none => -1

/-- Result of one engine operation: the new room state, the events
emitted (in order), and the error returned to the caller, if any. -/
structure StepOut where
  room : Room
  events : List Event
  error : Option String
deriving DecidableEq, Repr

/-- Operation with no state change, no events and no error. -/
def pureOut (r : Room) : StepOut := ⟨r, [], none⟩

/-- `Room.eliminatePlayer`: mark the seat's player dead, remove the seat
from `aliveSeats`, broadcast ELIM. -/
def elimPair (r : Room) (seat : Int) : Room × List Event :=
  let players := updateConnBySeat r.players seat
    (fun c => { c with player := { c.player with alive := false } })
  let r1 := mapGame { r with players := players }
    (fun g => { g with aliveSeats := g.aliveSeats.filter (fun s => s ≠ seat) })
  (r1, [Event.elim seat])

/-- `Room.setTurnDeadline`: arm the turn timer, with the normal timer
for a connected turn owner and the shorter one for a disconnected
owner. -/
def setTurnDeadline (r : Room) (now : Nat) : Room :=
  match r.game with
  | none => r
  | some g =>
    match findConnBySeat r g.turnSeat with
    | none => r
    | some conn =>
      let timeoutSeconds :=
        if conn.player.connected then r.settings.turnTimer
        else DISCONNECTED_TURN_TIMEOUT
      { r with game := some { g with deadlineTs := some (now + timeoutSeconds * 1000) } }

/-- `Room.awaitingReveal`. -/
def awaitingReveal (r : Room) : StepOut :=
  match r.game with
  | none => pureOut r
  | some _ =>
    let r1 := mapGame r (fun g =>
      { g with phase := Phase.AWAITING_REVEAL, deadlineTs := none })
    ⟨r1, phaseEvent r1, none⟩

/-- `Room.allNonDealersActed`. -/
def allNonDealersActed (r : Room) : Bool :=
  match r.game with
  | none => true
  | some g =>
    g.aliveSeats.all (fun seat =>
      !(decide (seat ≠ g.dealerSeat) && !(decide (seat ∈ g.actedSeats))
        && isPlayerAlive r seat && decide (seat ∈ g.facedownSeats)))

/-- The `while` loop of `Room.advanceTurn`, with explicit fuel. In the
source the loop is bounded by a safety break; fuel `|alive| + 1` is
enough to reproduce every terminating run of the loop. -/
def advanceSearch (r : Room) (acted : List Int) (turnSeat dealerSeat : Int) :
    Nat → Int → Int
  | 0, next => next
  | fuel + 1, next =>
    if next ≠ dealerSeat ∧ (next ∈ acted ∨ isPlayerAlive r next = false) then
      let n2 := getNextAliveSeat r next
      if n2 = turnSeat then n2
      else advanceSearch r acted turnSeat dealerSeat fuel n2
    else next

/-- `Room.advanceTurn`. -/
def advanceTurn (r : Room) (now : Nat) : StepOut :=
  match r.game with
  | none => pureOut r
  | some g =>
    let first := getNextAliveSeat r g.turnSeat
    let nextSeat := advanceSearch r g.actedSeats g.turnSeat g.dealerSeat
      ((getAliveSeats r).length + 1) first
    if nextSeat = g.dealerSeat ∨ allNonDealersActed r = true then
      awaitingReveal r
    else
      let r1 := mapGame r (fun g => { g with turnSeat := nextSeat })
      let r2 := setTurnDeadline r1 now
      ⟨r2, phaseEvent r2, none⟩

/-- `Room.handleDrink` (a `void` method: illegal drinks are silently
ignored, no error is produced). -/
def handleDrink (r : Room) (seat : Int) (now : Nat) : StepOut :=
  match r.game with
  | none => pureOut r
  | some g =>
    if g.phase ≠ Phase.TURNS then pureOut r
    else if seat ≠ g.turnSeat then pureOut r
    else if seat ∈ g.actedSeats then pureOut r
    else
      let r1 := mapGame r (fun g =>
        { g with actedSeats := g.actedSeats ++ [seat],
                 facedownSeats := g.facedownSeats.filter (fun s => s ≠ seat) })
      let cardType := lookupCard r.cardBySeat seat
      let hasCheese := decide (seat ∈ g.cheeseSeats)
      let shouldEliminate :=
        if hasCheese then decide (cardType = some CardType.SAFE)
        else decide (cardType = some CardType.DOOM)
      let ev := Event.reveal seat cardType
      let p := if shouldEliminate then elimPair r1 seat else (r1, [])
      let a := advanceTurn p.1 now
      ⟨a.room, ev :: p.2 ++ a.events, none⟩

/-- `Room.handleTurnTimeout`: on timer fire, synthesize a drink for the
current turn seat if the phase is still TURNS. -/
def handleTurnTimeout (r : Room) (now : Nat) : StepOut :=
  match r.game with
  | none => pureOut r
  | some g =>
    if g.phase = Phase.TURNS then handleDrink r g.turnSeat now
    else pureOut r

/-- `Room.handleSwap`. -/
def handleSwap (r : Room) (fromSeat targetSeat : Int) (now : Nat) : StepOut :=
  match r.game with
  | none => ⟨r, [], some "INVALID_ACTION"⟩
  | some g =>
    if g.phase ≠ Phase.TURNS then ⟨r, [], some "INVALID_ACTION"⟩
    else if fromSeat ≠ g.turnSeat then ⟨r, [], some "NOT_YOUR_TURN"⟩
    else if fromSeat ∈ g.actedSeats then ⟨r, [], some "ALREADY_ACTED"⟩
    else if targetSeat ∉ g.facedownSeats then ⟨r, [], some "INVALID_TARGET"⟩
    else if fromSeat = targetSeat then ⟨r, [], some "INVALID_TARGET"⟩
    else
      match getPlayerBySeat r targetSeat with
      | none => ⟨r, [], some "INVALID_TARGET"⟩
      | some targetPlayer =>
        if targetPlayer.alive = false then ⟨r, [], some "INVALID_TARGET"⟩
        else
          let r1 := mapGame r (fun g =>
            { g with actedSeats := g.actedSeats ++ [fromSeat] })
          let fromCard := lookupCard r1.cardBySeat fromSeat
          let toCard := lookupCard r1.cardBySeat targetSeat
          let cbs := setCardOpt (setCardOpt r1.cardBySeat fromSeat toCard) targetSeat fromCard
          let r2 := { r1 with cardBySeat := cbs }
          let a := advanceTurn r2 now
          ⟨a.room, Event.swapEv fromSeat targetSeat :: a.events, none⟩

/-- `Room.handleStealCheese` (Caseus Vitae). -/
def handleStealCheese (r : Room) (fromSeat targetSeat : Int) (now : Nat) : StepOut :=
  match r.game with
  | none => ⟨r, [], some "INVALID_ACTION"⟩
  | some g =>
    if g.phase ≠ Phase.TURNS then ⟨r, [], some "INVALID_ACTION"⟩
    else if r.settings.cheeseEnabled = false then ⟨r, [], some "INVALID_ACTION"⟩
    else if fromSeat ≠ g.turnSeat then ⟨r, [], some "NOT_YOUR_TURN"⟩
    else if fromSeat ∈ g.actedSeats then ⟨r, [], some "ALREADY_ACTED"⟩
    else if fromSeat = targetSeat then ⟨r, [], some "INVALID_TARGET"⟩
    else if fromSeat ∈ g.cheeseSeats then ⟨r, [], some "ALREADY_HAS_CHEESE"⟩
    else if targetSeat ∉ g.cheeseSeats then ⟨r, [], some "NO_CHEESE_TO_STEAL"⟩
    else
      match getPlayerBySeat r targetSeat with
      | none => ⟨r, [], some "INVALID_TARGET"⟩
      | some targetPlayer =>
        if targetPlayer.alive = false then ⟨r, [], some "INVALID_TARGET"⟩
        else
          let r1 := mapGame r (fun g =>
            { g with actedSeats := g.actedSeats ++ [fromSeat],
                     cheeseSeats := g.cheeseSeats.filter (fun s => s ≠ targetSeat) ++ [fromSeat] })
          let players1 := updateConnBySeat r1.players fromSeat
            (fun c => { c with player := { c.player with hasCheese := true } })
          let players2 := updateConnBySeat players1 targetSeat
            (fun c => { c with player := { c.player with hasCheese := false } })
          let r2 := { r1 with players := players2 }
          let cheeseSeats := match r2.game with
            | some g2 => g2.cheeseSeats
            | none => []
          let a := advanceTurn r2 now
          ⟨a.room,
           Event.cheeseStolen targetSeat fromSeat :: Event.cheeseUpdate cheeseSeats :: a.events,
           none⟩

/-- `Room.handleDealerSet`. `assignments` models the `Record<number,
'SAFE'|'DOOM'>` argument (unique keys); `cheeseShuffle` is the oracle
for `this.shuffle([...aliveSeats])` used by cheese distribution. -/
def handleDealerSet (r : Room) (dealerSeat : Int)
    (assignments : List (Int × CardType)) (cheeseShuffle : List Int) : StepOut :=
  match r.game with
  | none => ⟨r, [], some "INVALID_ACTION"⟩
  | some g =>
    if g.phase ≠ Phase.DEALER_SETUP then ⟨r, [], some "INVALID_ACTION"⟩
    else if dealerSeat ≠ g.dealerSeat then ⟨r, [], some "NOT_DEALER"⟩
    else
      let aliveSeats := getAliveSeats r
      if ¬ (∀ s ∈ aliveSeats, (lookupCard assignments s).isSome = true) then
        ⟨r, [], some "MISSING_ASSIGNMENTS"⟩
      else
        let cards := assignments.map (fun kv => kv.2)
        let hasSafe := cards.any (fun c => c = CardType.SAFE)
        let hasDoom := cards.any (fun c => c = CardType.DOOM)
        if ¬ (hasSafe = true ∧ hasDoom = true) then
          ⟨r, [], some "INVALID_COMPOSITION"⟩
        else
          let cbs := assignments.foldl (fun m kv => setCard m kv.1 kv.2) []
          let r1 := mapGame { r with cardBySeat := cbs } (fun g =>
            { g with facedownSeats := aliveSeats, actedSeats := [],
                     phase := Phase.DEALING, cheeseSeats := [] })
          let players1 := r1.players.map (fun c =>
            { c with player := { c.player with hasCheese := false } })
          let r2 := { r1 with players := players1 }
          let r3 :=
            if r2.settings.cheeseEnabled = true ∧ aliveSeats.length ≥ 3 then
              let cheeseCount := min r2.settings.cheeseCount (aliveSeats.length - 1)
              let recipients := cheeseShuffle.take cheeseCount
              let r3a := mapGame r2 (fun g => { g with cheeseSeats := recipients })
              { r3a with players := recipients.foldl (fun ps s =>
                  updateConnBySeat ps s (fun c =>
                    { c with player := { c.player with hasCheese := true } })) r3a.players }
            else r2
          let cheeseSeats := match r3.game with
            | some g3 => g3.cheeseSeats
            | none => []
          let evs := [Event.dealt aliveSeats] ++
            (if r3.settings.cheeseEnabled = true then [Event.cheeseUpdate cheeseSeats] else [])
          ⟨r3, evs, none⟩

/-- `Room.startTurns` (runs when the post-DEALT timer fires). -/
def startTurns (r : Room) (now : Nat) : StepOut :=
  match r.game with
  | none => pureOut r
  | some g =>
    let r1 := mapGame r (fun g => { g with phase := Phase.TURNS })
    let turnSeat := getNextAliveSeat r1 g.dealerSeat
    if turnSeat = g.dealerSeat then awaitingReveal r1
    else
      let r2 := mapGame r1 (fun g => { g with turnSeat := turnSeat })
      let r3 := setTurnDeadline r2 now
      ⟨r3, phaseEvent r3, none⟩

/-- `Room.returnToLobby`. The anonymous `setTimeout` scheduled by
`startNewRound` is not cancellable in the source, so
`pendingNextDealer` is deliberately left untouched here (the fired
callback no-ops once `game` is `null`). -/
def returnToLobby (r : Room) : Room × List Event :=
  let r1 := { r with
    status := Status.LOBBY
    game := none
    cardBySeat := []
    isVotingPhase := false
    rematchVotes := []
    players := r.players.map (fun c =>
      { c with player := { c.player with ready := false, alive := true, hasCheese := false } }) }
  (r1, [lobbyUpdateEvent r1])

/-- `Room.checkVoteResolution`. The 1.5 s `setTimeout` before
`returnToLobby` is inlined (the callback runs unconditionally). -/
def checkVoteResolution (r : Room) : Room × List Event :=
  if r.isVotingPhase = false then (r, [])
  else
    let connectedSeats := getConnectedSeats r
    let requiredVotes := connectedSeats.length
    if (∀ s ∈ connectedSeats, s ∈ r.rematchVotes) ∧ requiredVotes > 0 then
      let r1 := { r with isVotingPhase := false }
      let ev := Event.voteUpdate r.rematchVotes requiredVotes "STARTING"
      let p := returnToLobby r1
      (p.1, ev :: p.2)
    else (r, [])

/-- `Room.startRematchVoting` plus the preceding GAME_END broadcast:
`Room.endGame`. -/
def endGame (r : Room) : StepOut :=
  match r.game with
  | none => pureOut r
  | some g =>
    let winnerSeat := g.aliveSeats.headD (-1)
    let r1 := mapGame r (fun g => { g with phase := Phase.GAME_END })
    let r2 := { r1 with isVotingPhase := true, rematchVotes := [] }
    ⟨r2, [Event.gameEnd winnerSeat, voteUpdateEvent r2], none⟩

/-- `Room.handleRematchVote`. -/
def handleRematchVote (r : Room) (seat : Int) (vote : Bool) : StepOut :=
  if r.isVotingPhase = false then pureOut r
  else
    let votes :=
      if vote then (if seat ∈ r.rematchVotes then r.rematchVotes else r.rematchVotes ++ [seat])
      else r.rematchVotes.filter (fun s => s ≠ seat)
    let r1 := { r with rematchVotes := votes }
    let ev := voteUpdateEvent r1
    let p := checkVoteResolution r1
    ⟨p.1, ev :: p.2, none⟩

/-- `Room.startNewRound`: announce ROUND_END and record the next dealer
seat that the scheduled continuation will apply. -/
def startNewRound (r : Room) : StepOut :=
  match r.game with
  | none => pureOut r
  | some g =>
    let nextDealer := getNextAliveSeat r g.dealerSeat
    let r1 := mapGame r (fun g =>
      { g with phase := Phase.ROUND_END, roundIndex := g.roundIndex + 1 })
    let r2 := { r1 with pendingNextDealer := some nextDealer }
    ⟨r2, [Event.roundEnd nextDealer], none⟩

/-- `Room.startNewRoundSetup`. -/
def startNewRoundSetup (r : Room) : StepOut :=
  match r.game with
  | none => pureOut r
  | some _ =>
    let aliveSeats := getAliveSeats r
    if aliveSeats.length < 2 then endGame r
    else
      let r1 := mapGame r (fun g =>
        { g with phase := Phase.DEALER_SETUP, facedownSeats := [], actedSeats := [] })
      ⟨r1, phaseEvent r1, none⟩

/-- The continuation scheduled by `startNewRound` (fires after the
ROUND_END hold): install the captured next dealer and run
`startNewRoundSetup`. -/
def roundEndTimerFire (r : Room) : StepOut :=
  match r.game with
  | none => pureOut { r with pendingNextDealer := none }
  | some _ =>
    match r.pendingNextDealer with
    | none => pureOut r
    | some nextDealer =>
      startNewRoundSetup
        (mapGame { r with pendingNextDealer := none }
          (fun g => { g with dealerSeat := nextDealer }))

/-- `Room.checkRoundEnd`. -/
def checkRoundEnd (r : Room) : StepOut :=
  match r.game with
  | none => pureOut r
  | some g =>
    if g.aliveSeats.length ≤ 1 then endGame r else startNewRound r

/-- One reveal of the FINAL_REVEAL sequence (the body of the per-seat
`setTimeout` callback in `Room.startRevealSequence`). -/
def revealStep (r : Room) (seat : Int) : Room × List Event :=
  match r.game with
  | none => (r, [])
  | some g =>
    let cardType := lookupCard r.cardBySeat seat
    let hasCheese := decide (seat ∈ g.cheeseSeats)
    let shouldEliminate :=
      if hasCheese then decide (cardType = some CardType.SAFE)
      else decide (cardType = some CardType.DOOM)
    let ev := Event.reveal seat cardType
    let p := if shouldEliminate then elimPair r seat else (r, [])
    let r2 := mapGame p.1 (fun g2 =>
      { g2 with facedownSeats := g2.facedownSeats.filter (fun s => s ≠ seat) })
    (r2, ev :: p.2)

/-- The scheduled reveal callbacks, run in their scheduling order. -/
def revealFold (r : Room) : List Int → Room × List Event
  | [] => (r, [])
  | s :: rest =>
    let p := revealStep r s
    let q := revealFold p.1 rest
    (q.1, p.2 ++ q.2)

/-- `Room.startRevealSequence`: enter FINAL_REVEAL, reveal every seat
captured from `facedownSeats`, then `checkRoundEnd`. -/
def startRevealSequence (r : Room) : StepOut :=
  match r.game with
  | none => pureOut r
  | some g =>
    let r1 := mapGame r (fun g => { g with phase := Phase.FINAL_REVEAL })
    let evs0 := phaseEvent r1
    let toReveal := g.facedownSeats
    let p := revealFold r1 toReveal
    let o := checkRoundEnd p.1
    ⟨o.room, evs0 ++ p.2 ++ o.events, none⟩

/-- `Room.handleStartReveal`. -/
def handleStartReveal (r : Room) (dealerSeat : Int) : StepOut :=
  match r.game with
  | none => ⟨r, [], some "INVALID_ACTION"⟩
  | some g =>
    if g.phase ≠ Phase.AWAITING_REVEAL then ⟨r, [], some "INVALID_ACTION"⟩
    else if g.dealerSeat ≠ dealerSeat then ⟨r, [], some "NOT_DEALER"⟩
    else startRevealSequence r

-- ==========================================
-- Membership and connection lifecycle
-- ==========================================

/-- Smallest non-negative seat not yet used; fuel-bounded mirror of the
`while (usedSeats.has(seat)) seat++` loop (fuel `|players| + 1` always
suffices). -/
def firstFreeSeat (used : List Int) : Nat → Int → Int
  | 0, s => s
  | fuel + 1, s => if s ∈ used then firstFreeSeat used fuel (s + 1) else s

/-- `Room.isNameTaken` (also the inline duplicate-name check of
`addPlayer`): case-insensitive comparison against a trimmed query. -/
def isNameTaken (r : Room) (name : String) : Bool :=
  r.players.any (fun c => c.player.name.toLower = name.trim.toLower)

/-- `Room.addPlayer`. -/
def addPlayer (r : Room) (id name : String) (avatarId : Nat)
    (token sessionId : String) (ws : Nat) : Room × Option String :=
  if r.players.length ≥ MAX_PLAYERS then (r, some "ROOM_FULL")
  else if r.status = Status.IN_GAME then (r, some "GAME_IN_PROGRESS")
  else if isNameTaken r name then (r, some "NAME_TAKEN")
  else
    let seat := firstFreeSeat (r.players.map (fun c => c.player.seat))
      (r.players.length + 1) 0
    let player : Player :=
      { id := id, name := name, avatarId := avatarId, seat := seat,
        alive := true, connected := true, ready := false, hasCheese := false }
    ({ r with players := r.players ++
        [{ player := player, ws := some ws, token := token,
           sessionId := sessionId, disconnectedAt := none }] }, none)

/-- `Room.reconnectPlayer`: rebind the first player holding the token
to the new socket —  with no check whatsoever of whether that player is
already connected. Returns the reconnected player's id on success. -/
def reconnectPlayer (r : Room) (token : String) (ws : Nat) :
    Room × List Event × Option String :=
  match r.players.find? (fun c => c.token = token) with
  | some conn =>
    let players1 := updateConnById r.players conn.player.id (fun c =>
      { c with ws := some ws,
               player := { c.player with connected := true },
               disconnectedAt := none })
    let r1 := { r with players := players1 }
    (r1, [Event.playerReconnected conn.player.seat], some conn.player.id)
  | none => (r, [], none)

/-- `Room.removePlayer` (with host reassignment to the first remaining
player and a LOBBY_UPDATE broadcast). -/
def removePlayer (r : Room) (playerId : String) : Room × List Event :=
  match findConnById r playerId with
  | none => (r, [])
  | some _ =>
    let players1 := r.players.filter (fun c => c.player.id ≠ playerId)
    let hostId :=
      if playerId = r.hostId ∧ players1 ≠ [] then
        match players1 with
        | c :: _ => c.player.id
        | [] => r.hostId
      else r.hostId
    let r1 := { r with players := players1, hostId := hostId }
    (r1, [lobbyUpdateEvent r1])

/-- `Room.setPlayerReady`. -/
def setPlayerReady (r : Room) (playerId : String) (ready : Bool) : Room × List Event :=
  match findConnById r playerId with
  | none => (r, [])
  | some _ =>
    let players1 := updateConnById r.players playerId (fun c =>
      { c with player := { c.player with ready := ready } })
    let r1 := { r with players := players1 }
    (r1, [lobbyUpdateEvent r1])

/-- `Room.canStartGame`. -/
def canStartGame (r : Room) (playerId : String) : Option String :=
  if playerId ≠ r.hostId then some "NOT_HOST"
  else if r.players.length < MIN_PLAYERS then some "NOT_ENOUGH_PLAYERS"
  else if ¬ (∀ c ∈ r.players, c.player.ready = true ∨ c.player.id = r.hostId) then
    some "NOT_ALL_READY"
  else none

/-- `Room.startGame`; `dealerIdx` is the oracle for the uniform random
dealer pick among the alive seats. -/
def startGame (r : Room) (dealerIdx : Nat) : StepOut :=
  let players1 := r.players.map (fun c =>
    { c with player := { c.player with alive := true } })
  let r1 := { r with status := Status.IN_GAME, players := players1 }
  let aliveSeats := getAliveSeats r1
  let dealerSeat := aliveSeats.getD (dealerIdx % aliveSeats.length) (-1)
  let newGame : GameState :=
    { phase := Phase.DEALER_SETUP, dealerSeat := dealerSeat, turnSeat := -1,
      roundIndex := 0, aliveSeats := aliveSeats, facedownSeats := [],
      actedSeats := [], deadlineTs := none, cheeseSeats := [] }
  let r2 := { r1 with game := some newGame }
  ⟨r2, phaseEvent r2, none⟩

/-- `Room.updateSettings`; the websocket schema only lets the host patch
`cheeseEnabled` and `cheeseCount`. -/
structure SettingsPatch where
  cheeseEnabled : Option Bool
  cheeseCount : Option Nat
deriving DecidableEq, Repr

/-- `Room.updateSettings`. -/
def updateSettings (r : Room) (playerId : String) (patch : SettingsPatch) : StepOut :=
  if playerId ≠ r.hostId then ⟨r, [], some "NOT_HOST"⟩
  else if r.status ≠ Status.LOBBY then ⟨r, [], some "GAME_IN_PROGRESS"⟩
  else
    let r1 := { r with settings :=
      { r.settings with
        cheeseEnabled := patch.cheeseEnabled.getD r.settings.cheeseEnabled,
        cheeseCount := patch.cheeseCount.getD r.settings.cheeseCount } }
    ⟨r1, [lobbyUpdateEvent r1], none⟩

/-- `Room.handleDisconnectedDealerSetup`: synthesize a valid random
assignment for a disconnected dealer. `shuffled` models
`this.shuffle([...aliveSeats])` and `coins` the per-seat coin flips
(`true` for SAFE); `Object.entries` ordering of the resulting record is
irrelevant because only lookups and value scans consume it. -/
def handleDisconnectedDealerSetup (r : Room) (shuffled : List Int)
    (coins : List Bool) (cheeseShuffle : List Int) : StepOut :=
  match r.game with
  | none => pureOut r
  | some g =>
    if g.phase ≠ Phase.DEALER_SETUP then pureOut r
    else
      let aliveSeats := getAliveSeats r
      if aliveSeats.length < 2 then endGame r
      else
        let assignments :=
          match shuffled with
          | s0 :: s1 :: rest =>
            [(s0, CardType.DOOM), (s1, CardType.SAFE)] ++
              (rest.zip coins).map (fun sc =>
                (sc.1, if sc.2 then CardType.SAFE else CardType.DOOM))
          | _ => []
        handleDealerSet r g.dealerSeat assignments cheeseShuffle

/-- The voting-phase reaction of `Room.disconnectPlayer`: drop the
disconnected seat's vote, broadcast the tally, re-check resolution. -/
def disconnectVotePart (r : Room) (seat : Int) : Room × List Event :=
  if r.isVotingPhase then
    let r2a := { r with rematchVotes := r.rematchVotes.filter (fun s => s ≠ seat) }
    let pb := checkVoteResolution r2a
    (pb.1, voteUpdateEvent r2a :: pb.2)
  else (r, [])

/-- The turn-owner reaction of `Room.disconnectPlayer`: re-arm the turn
timer when the disconnecting player holds the turn. -/
def disconnectTurnPart (r : Room) (seat : Int) (now : Nat) : Room :=
  match r.game with
  | some g =>
    if g.phase = Phase.TURNS ∧ g.turnSeat = seat then setTurnDeadline r now
    else r
  | none => r

/-- The dealer-setup reaction of `Room.disconnectPlayer`: auto-compose
for a disconnected dealer. -/
def disconnectDealerSetupPart (r : Room) (seat : Int) (shuffled : List Int)
    (coins : List Bool) (cheeseShuffle : List Int) : StepOut :=
  match r.game with
  | some g =>
    if g.phase = Phase.DEALER_SETUP ∧ g.dealerSeat = seat then
      handleDisconnectedDealerSetup r shuffled coins cheeseShuffle
    else pureOut r
  | none => pureOut r

/-- The awaiting-reveal reaction of `Room.disconnectPlayer`: auto-fire
the reveal for a disconnected dealer. -/
def disconnectRevealPart (r : Room) (seat : Int) : StepOut :=
  match r.game with
  | some g =>
    if g.phase = Phase.AWAITING_REVEAL ∧ g.dealerSeat = seat then
      startRevealSequence r
    else pureOut r
  | none => pureOut r

/-- `Room.disconnectPlayer` (the immediate part; the scheduled
reconnect-window check is `checkDisconnectTimeout`). -/
def disconnectPlayer (r : Room) (playerId : String) (now : Nat)
    (shuffled : List Int) (coins : List Bool) (cheeseShuffle : List Int) : StepOut :=
  match findConnById r playerId with
  | none => pureOut r
  | some conn =>
    if r.status = Status.LOBBY then
      let p := removePlayer r playerId
      ⟨p.1, p.2 ++ [Event.playerLeft conn.player.seat "disconnected"], none⟩
    else
      let players1 := updateConnById r.players playerId (fun c =>
        { c with ws := none,
                 player := { c.player with connected := false },
                 disconnectedAt := some now })
      let r1 := { r with players := players1 }
      let evs0 := [Event.playerLeft conn.player.seat "disconnected"]
      let pv := disconnectVotePart r1 conn.player.seat
      let r3 := disconnectTurnPart pv.1 conn.player.seat now
      let o4 := disconnectDealerSetupPart r3 conn.player.seat shuffled coins cheeseShuffle
      let o5 := disconnectRevealPart o4.room conn.player.seat
      ⟨o5.room, evs0 ++ pv.2 ++ o4.events ++ o5.events, none⟩

/-- `Room.checkGameEnd`. -/
def checkGameEnd (r : Room) : StepOut :=
  match r.game with
  | none => pureOut r
  | some _ =>
    let r1 := mapGame r (fun g => { g with aliveSeats := getAliveSeats r })
    if (getAliveSeats r).length ≤ 1 then endGame r1 else pureOut r1

/-- `Room.checkDisconnectTimeout` (the reconnect grace-window check). -/
def checkDisconnectTimeout (r : Room) (playerId : String) (now : Nat) : StepOut :=
  match findConnById r playerId with
  | none => pureOut r
  | some conn =>
    match conn.disconnectedAt with
    | none => pureOut r
    | some d =>
      if conn.player.connected = false ∧ now - d ≥ RECONNECT_TIMEOUT * 1000 then
        if r.status = Status.IN_GAME then
          if r.isVotingPhase then
            let p := removePlayer r playerId
            ⟨p.1, p.2 ++ [Event.playerLeft conn.player.seat "disconnected"], none⟩
          else
            let players1 := updateConnById r.players playerId (fun c =>
              { c with player := { c.player with alive := false } })
            checkGameEnd { r with players := players1 }
        else
          let p := removePlayer r playerId
          ⟨p.1, p.2, none⟩
      else pureOut r

/-- `Room.handlePlayerLeave` (voluntary LEAVE_ROOM). -/
def handlePlayerLeave (r : Room) (playerId : String) : StepOut :=
  match findConnById r playerId with
  | none => pureOut r
  | some conn =>
    let seat := conn.player.seat
    let r1 := { r with rematchVotes := r.rematchVotes.filter (fun s => s ≠ seat) }
    let ev0 := Event.playerLeft seat "left"
    let p := removePlayer r1 playerId
    if p.1.isVotingPhase then
      let ev2 := voteUpdateEvent p.1
      let q := checkVoteResolution p.1
      ⟨q.1, ev0 :: p.2 ++ ev2 :: q.2, none⟩
    else ⟨p.1, ev0 :: p.2, none⟩

-- ==========================================
-- RoomManager (`managers/RoomManager.ts`)
-- ==========================================

/-- Token registry entry. -/
structure TokenInfo where
  playerId : String
  roomId : String
  sessionId : String
deriving DecidableEq, Repr

/-- The process-wide registry maps. -/
structure RoomManager where
  rooms : List (String × Room)
  roomsByCode : List (String × String)
  playerToRoom : List (String × String)
  tokenToPlayer : List (String × TokenInfo)
deriving DecidableEq, Repr

/-- Result of `Room.findPlayerBySessionId`. -/
structure SessionHit where
  playerId : String
  token : String
  connected : Bool
deriving DecidableEq, Repr

/-- `Room.findPlayerBySessionId`. -/
def findPlayerBySessionId (r : Room) (sessionId : String) : Option SessionHit :=
  (r.players.find? (fun c => c.sessionId = sessionId)).map (fun c =>
    { playerId := c.player.id, token := c.token, connected := c.player.connected })

/-- `Room.isFull`. -/
def isFull (r : Room) : Bool := r.players.length ≥ MAX_PLAYERS

/-- `Room.isInGame`. -/
def isInGame (r : Room) : Bool := r.status = Status.IN_GAME

/-- Result of `RoomManager.joinRoom`. -/
inductive JoinResult
  | ok (roomId : String) (token : String) (playerId : String) (isReconnect : Bool)
  | err (code : String)
deriving DecidableEq, Repr

/-- `RoomManager.joinRoom`. `newPlayerId`/`newToken` are the oracles for
the fresh uuids drawn on the new-player path. -/
def joinRoom (m : RoomManager) (joinCode name : String) (avatarId : Nat)
    (sessionId : String) (newPlayerId newToken : String) : JoinResult × RoomManager :=
  match lookupStr m.roomsByCode joinCode.toUpper with
  | none => (JoinResult.err "ROOM_NOT_FOUND", m)
  | some roomId =>
    match lookupStr m.rooms roomId with
    | none => (JoinResult.err "ROOM_NOT_FOUND", m)
    | some room =>
      match findPlayerBySessionId room sessionId with
      | some hit =>
        if hit.connected then (JoinResult.err "SESSION_ALREADY_IN_ROOM", m)
        else (JoinResult.ok room.id hit.token hit.playerId true, m)
      | none =>
        if isNameTaken room name then (JoinResult.err "NAME_TAKEN", m)
        else if isFull room then (JoinResult.err "ROOM_FULL", m)
        else if isInGame room then (JoinResult.err "GAME_IN_PROGRESS", m)
        else
          (JoinResult.ok room.id newToken newPlayerId false,
           { m with
             playerToRoom := m.playerToRoom ++ [(newPlayerId, room.id)],
             tokenToPlayer := m.tokenToPlayer ++
               [(newToken, { playerId := newPlayerId, roomId := room.id,
                             sessionId := sessionId })] })

-- ==========================================
-- Websocket dispatch (`handlers/wsHandlers.ts`)
-- ==========================================

/-- The room-scope part of `handleJoin`: try `reconnectPlayer` with the
presented token; on success send the STATE snapshot, otherwise add a
new player (the token's playerId and sessionId are resolved upstream
from the token registry) and send STATE plus a LOBBY_UPDATE. -/
def joinStep (r : Room) (token pid name : String) (avatarId : Nat)
    (sessionId : String) (ws : Nat) : Room × List Event :=
  let p := reconnectPlayer r token ws
  match p.2.2 with
  | some playerId => (p.1, p.2.1 ++ [fullStateEvent p.1 playerId])
  | none =>
    match addPlayer r pid name avatarId token sessionId ws with
    | (r2, some e) => (r2, [Event.errorEv e])
    | (r2, none) => (r2, [fullStateEvent r2 pid, lobbyUpdateEvent r2])

/-- The composition-to-assignments conversion of the websocket
`DEALER_SET` handler: the composition array is matched positionally with
the ascending alive seats. -/
def wsDealerSet (r : Room) (playerId : String) (composition : List CardType)
    (cheeseShuffle : List Int) : StepOut :=
  let dealerSeat := yourSeat r playerId
  let aliveSeats := sortInts
    (((getRoomState r).players.filter (fun p => p.alive)).map (fun p => p.seat))
  let assignments := aliveSeats.zip composition
  handleDealerSet r dealerSeat assignments cheeseShuffle

/-- An engine operation targeting a room: the client intents of the
websocket protocol (with identity resolved and random draws passed as
oracles) plus the internal timer/lifecycle events. -/
inductive Op
  | join (token pid name : String) (avatarId : Nat) (sessionId : String) (ws : Nat)
  | ready (pid : String) (ready : Bool)
  | startGameOp (pid : String) (dealerIdx : Nat)
  | updateSettingsOp (pid : String) (patch : SettingsPatch)
  | actionDrink (pid : String)
  | actionSwap (pid : String) (targetSeat : Int)
  | actionStealCheese (pid : String) (targetSeat : Int)
  | dealerSetOp (pid : String) (composition : List CardType) (cheeseShuffle : List Int)
  | dealerPreviewOp (pid : String) (seat : Int) (cardType : Option CardType)
  | startRevealOp (pid : String)
  | voteRematch (pid : String) (vote : Bool)
  | leaveRoom (pid : String)
  | pingOp (t : Nat)
  | disconnectOp (pid : String) (shuffled : List Int) (coins : List Bool)
      (cheeseShuffle : List Int)
  | turnTimeoutOp
  | dealingTimerOp
  | roundEndTimerOp
  | disconnectTimeoutOp (pid : String)
deriving DecidableEq, Repr

/-- Turn a handler result into dispatched output: on error, an ERROR
frame is sent to the offending socket. -/
def withError (o : StepOut) : Room × List Event :=
  match o.error with
  | some e => (o.room, o.events ++ [Event.errorEv e])
  | none => (o.room, o.events)

/-- The serialized per-room engine step: dispatch of one inbound intent
or internal event, as in `createMessageHandler` plus the timer
callbacks of `Room.ts`. -/
def step (r : Room) (now : Nat) : Op → Room × List Event
  | Op.join token pid name avatarId sessionId ws =>
    joinStep r token pid name avatarId sessionId ws
  | Op.ready pid rdy => setPlayerReady r pid rdy
  | Op.startGameOp pid dealerIdx =>
    match canStartGame r pid with
    | some e => (r, [Event.errorEv e])
    | none => withError (startGame r dealerIdx)
  | Op.updateSettingsOp pid patch => withError (updateSettings r pid patch)
  | Op.actionDrink pid => withError (handleDrink r (yourSeat r pid) now)
  | Op.actionSwap pid targetSeat =>
    withError (handleSwap r (yourSeat r pid) targetSeat now)
  | Op.actionStealCheese pid targetSeat =>
    withError (handleStealCheese r (yourSeat r pid) targetSeat now)
  | Op.dealerSetOp pid comp cheeseShuffle =>
    withError (wsDealerSet r pid comp cheeseShuffle)
  | Op.dealerPreviewOp pid seat cardType =>
    match r.game with
    | some g =>
      if g.dealerSeat = yourSeat r pid then
        (r, [Event.dealerPreview seat cardType.isSome])
      else (r, [])
    | none => (r, [])
  | Op.startRevealOp pid => withError (handleStartReveal r (yourSeat r pid))
  | Op.voteRematch pid v =>
    if r.isVotingPhase then withError (handleRematchVote r (yourSeat r pid) v)
    else (r, [])
  | Op.leaveRoom pid => withError (handlePlayerLeave r pid)
  | Op.pingOp t => (r, [Event.pong t])
  | Op.disconnectOp pid shuffled coins cheeseShuffle =>
    withError (disconnectPlayer r pid now shuffled coins cheeseShuffle)
  | Op.turnTimeoutOp => withError (handleTurnTimeout r now)
  | Op.dealingTimerOp => withError (startTurns r now)
  | Op.roundEndTimerOp => withError (roundEndTimerFire r)
  | Op.disconnectTimeoutOp pid => withError (checkDisconnectTimeout r pid now)

-- ==========================================
-- Basic structural lemmas
-- ==========================================

theorem mapGame_players (r : Room) (f : GameState → GameState) :
    (mapGame r f).players = r.players := rfl

theorem mapGame_cardBySeat (r : Room) (f : GameState → GameState) :
    (mapGame r f).cardBySeat = r.cardBySeat := rfl

theorem isPlayerAlive_congr (r r' : Room) (s : Int) (h : r.players = r'.players) :
    isPlayerAlive r s = isPlayerAlive r' s := by
  simp [isPlayerAlive, findConnBySeat, h]

theorem mapGame_game_cheese (r : Room) (f : GameState → GameState)
    (hf : ∀ g, (f g).cheeseSeats = g.cheeseSeats) :
    (mapGame r f).game.map (fun g => g.cheeseSeats) =
      r.game.map (fun g => g.cheeseSeats) := by
  cases hg : r.game <;> simp [mapGame, hg, hf]

theorem find?_map_pres {α : Type} (l : List α) (p : α → Bool) (g : α → α)
    (hp : ∀ a, p (g a) = p a) :
    (l.map g).find? p = (l.find? p).map g := by
  induction l with
  | nil => rfl
  | cons a l ih =>
    by_cases ha : p a = true
    · rw [List.map_cons, List.find?_cons_of_pos _ (by rw [hp]; exact ha),
        List.find?_cons_of_pos _ ha]
      rfl
    · rw [List.map_cons,
        List.find?_cons_of_neg _ (by rw [hp]; simpa using ha),
        List.find?_cons_of_neg _ (by simpa using ha), ih]

theorem find?_updateConnBySeat (l : List PlayerConn) (s : Int)
    (f : PlayerConn → PlayerConn) (hf : ∀ c, (f c).player.seat = c.player.seat)
    (s' : Int) :
    (updateConnBySeat l s f).find? (fun c => decide (c.player.seat = s')) =
      (l.find? (fun c => decide (c.player.seat = s'))).map
        (fun c => if c.player.seat = s then f c else c) := by
  apply find?_map_pres
  intro a
  by_cases h : a.player.seat = s <;> simp [h, hf]

theorem find?_updateConnById (l : List PlayerConn) (pid : String)
    (f : PlayerConn → PlayerConn) (hf : ∀ c, (f c).player.seat = c.player.seat)
    (s' : Int) :
    (updateConnById l pid f).find? (fun c => decide (c.player.seat = s')) =
      (l.find? (fun c => decide (c.player.seat = s'))).map
        (fun c => if c.player.id = pid then f c else c) := by
  apply find?_map_pres
  intro a
  by_cases h : a.player.id = pid <;> simp [h, hf]

theorem find?_by_id_after_update (l : List PlayerConn) (pid : String)
    (f : PlayerConn → PlayerConn) (hf : ∀ c, (f c).player.id = c.player.id) :
    (updateConnById l pid f).find? (fun c => decide (c.player.id = pid)) =
      (l.find? (fun c => decide (c.player.id = pid))).map
        (fun c => if c.player.id = pid then f c else c) := by
  unfold updateConnById
  apply find?_map_pres
  intro a
  by_cases h : a.player.id = pid <;> simp [h, hf]

theorem elimPair_players_dead (r : Room) (s : Int) :
    isPlayerAlive (elimPair r s).1 s = false := by
  simp only [elimPair, isPlayerAlive, findConnBySeat, mapGame_players]
  rw [find?_updateConnBySeat r.players s
    (fun c => { c with player := { c.player with alive := false } }) (fun c => rfl) s]
  cases hfind : r.players.find? (fun c => decide (c.player.seat = s)) with
  | none => rfl
  | some c0 =>
    have hs : c0.player.seat = s := by
      have := List.find?_some hfind
      simpa using this
    simp [hs]

theorem elimPair_cardBySeat (r : Room) (s : Int) :
    (elimPair r s).1.cardBySeat = r.cardBySeat := rfl

theorem elimPair_game_cheese (r : Room) (s : Int) :
    (elimPair r s).1.game.map (fun g => g.cheeseSeats) =
      r.game.map (fun g => g.cheeseSeats) := by
  cases hg : r.game <;> simp [elimPair, mapGame, hg]

theorem elimPair_players_cheese (r : Room) (s : Int) :
    (elimPair r s).1.players.map (fun pc => (pc.player.seat, pc.player.hasCheese)) =
      r.players.map (fun pc => (pc.player.seat, pc.player.hasCheese)) := by
  simp only [elimPair, mapGame_players, updateConnBySeat, List.map_map]
  refine List.map_congr_left (fun c _ => ?_)
  by_cases hc : c.player.seat = s <;> simp [hc]

theorem elimPair_players_alive_other (r : Room) (s s' : Int) (h : s' ≠ s) :
    isPlayerAlive (elimPair r s).1 s' = isPlayerAlive r s' := by
  simp only [elimPair, isPlayerAlive, findConnBySeat, mapGame_players]
  rw [find?_updateConnBySeat r.players s
    (fun c => { c with player := { c.player with alive := false } }) (fun c => rfl) s']
  cases hfind : r.players.find? (fun c => decide (c.player.seat = s')) with
  | none => rfl
  | some c0 =>
    have hs : c0.player.seat = s' := by
      have := List.find?_some hfind
      simpa using this
    have : ¬ c0.player.seat = s := by rw [hs]; exact h
    simp [this]

theorem setTurnDeadline_players (r : Room) (now : Nat) :
    (setTurnDeadline r now).players = r.players := by
  unfold setTurnDeadline
  split
  · rfl
  · split <;> rfl

theorem setTurnDeadline_cardBySeat (r : Room) (now : Nat) :
    (setTurnDeadline r now).cardBySeat = r.cardBySeat := by
  unfold setTurnDeadline
  split
  · rfl
  · split <;> rfl

theorem setTurnDeadline_game_cheese (r : Room) (now : Nat) :
    (setTurnDeadline r now).game.map (fun g => g.cheeseSeats) =
      r.game.map (fun g => g.cheeseSeats) := by
  unfold setTurnDeadline
  split
  · rfl
  next g hg =>
    split
    · rfl
    · simp [hg]

theorem setTurnDeadline_game_phase (r : Room) (now : Nat) :
    (setTurnDeadline r now).game.map (fun g => g.phase) =
      r.game.map (fun g => g.phase) := by
  unfold setTurnDeadline
  split
  · rfl
  next g hg =>
    split
    · rfl
    · simp [hg]

theorem awaitingReveal_players (r : Room) :
    (awaitingReveal r).room.players = r.players := by
  unfold awaitingReveal
  split <;> rfl

theorem awaitingReveal_cardBySeat (r : Room) :
    (awaitingReveal r).room.cardBySeat = r.cardBySeat := by
  unfold awaitingReveal
  split <;> rfl

theorem awaitingReveal_game_cheese (r : Room) :
    (awaitingReveal r).room.game.map (fun g => g.cheeseSeats) =
      r.game.map (fun g => g.cheeseSeats) := by
  unfold awaitingReveal
  split
  · rfl
  next g hg => simp [mapGame, hg]

theorem advanceTurn_players (r : Room) (now : Nat) :
    (advanceTurn r now).room.players = r.players := by
  unfold advanceTurn
  split
  · rfl
  · dsimp only
    split
    · exact awaitingReveal_players r
    · simp [setTurnDeadline_players, mapGame_players]

theorem advanceTurn_cardBySeat (r : Room) (now : Nat) :
    (advanceTurn r now).room.cardBySeat = r.cardBySeat := by
  unfold advanceTurn
  split
  · rfl
  · dsimp only
    split
    · exact awaitingReveal_cardBySeat r
    · simp [setTurnDeadline_cardBySeat, mapGame_cardBySeat]

theorem advanceTurn_game_cheese (r : Room) (now : Nat) :
    (advanceTurn r now).room.game.map (fun g => g.cheeseSeats) =
      r.game.map (fun g => g.cheeseSeats) := by
  unfold advanceTurn
  split
  · rfl
  next g hg =>
    dsimp only
    split
    · exact awaitingReveal_game_cheese r
    · rw [setTurnDeadline_game_cheese]
      simp [mapGame, hg]

-- ==========================================
-- Concrete rooms used by witnesses
-- ==========================================

def mkConn (id name : String) (seat : Int) (ready : Bool) : PlayerConn :=
  { player := { id := id, name := name, avatarId := 0, seat := seat,
                alive := true, connected := true, ready := ready, hasCheese := false },
    ws := some 1, token := "tok" ++ id, sessionId := "sess" ++ id,
    disconnectedAt := none }

def lobbySettings : RoomSettings :=
  { turnTimer := 30, cheeseEnabled := false, cheeseCount := 2 }

/-- A three-player game in phase TURNS: dealer seat 1, turn at seat 2,
cards A:SAFE B:SAFE C:DOOM, seat 1 has already acted. -/
def gTurns : GameState :=
  { phase := Phase.TURNS, dealerSeat := 1, turnSeat := 2, roundIndex := 0,
    aliveSeats := [0, 1, 2], facedownSeats := [0, 1, 2], actedSeats := [],
    deadlineTs := none, cheeseSeats := [] }

def sampleRoom : Room :=
  { id := "room1", joinCode := "ABCDEF", hostId := "A",
    settings := lobbySettings,
    players := [mkConn "A" "alice" 0 true, mkConn "B" "bob" 1 true, mkConn "C" "carol" 2 true],
    status := Status.IN_GAME, game := some gTurns,
    cardBySeat := [(0, CardType.SAFE), (1, CardType.SAFE), (2, CardType.DOOM)],
    rematchVotes := [], isVotingPhase := false, pendingNextDealer := none }

-- ==========================================
-- C3: dealer composition acceptance
-- ==========================================

/-- C3: in phase DEALER_SETUP, a composition submitted by the dealer is
accepted iff it assigns a card to every alive seat and the assigned
cards include at least one SAFE and at least one DOOM; otherwise it is
rejected with MISSING_ASSIGNMENTS (some alive seat uncovered, checked
first) or INVALID_COMPOSITION (all one kind), leaving the room
unchanged and emitting nothing. -/
theorem dealerSet_accept_iff (r : Room) (g : GameState)
    (asg : List (Int × CardType)) (sh : List Int)
    (hg : r.game = some g) (hph : g.phase = Phase.DEALER_SETUP) :
    ((handleDealerSet r g.dealerSeat asg sh).error = none ↔
      (∀ s ∈ getAliveSeats r, (lookupCard asg s).isSome = true) ∧
      (asg.map (fun kv => kv.2)).any (fun c => c = CardType.SAFE) = true ∧
      (asg.map (fun kv => kv.2)).any (fun c => c = CardType.DOOM) = true) ∧
    ((¬ ∀ s ∈ getAliveSeats r, (lookupCard asg s).isSome = true) →
      handleDealerSet r g.dealerSeat asg sh = ⟨r, [], some "MISSING_ASSIGNMENTS"⟩) ∧
    ((∀ s ∈ getAliveSeats r, (lookupCard asg s).isSome = true) →
      ¬ ((asg.map (fun kv => kv.2)).any (fun c => c = CardType.SAFE) = true ∧
         (asg.map (fun kv => kv.2)).any (fun c => c = CardType.DOOM) = true) →
      handleDealerSet r g.dealerSeat asg sh = ⟨r, [], some "INVALID_COMPOSITION"⟩) := by
  simp only [handleDealerSet, hg]
  rw [hph]
  rw [if_neg (by simp)]
  rw [if_neg (by simp)]
  by_cases hcov : ∀ s ∈ getAliveSeats r, (lookupCard asg s).isSome = true
  · rw [if_neg (not_not_intro hcov)]
    by_cases hcomp :
        (asg.map (fun kv => kv.2)).any (fun c => c = CardType.SAFE) = true ∧
        (asg.map (fun kv => kv.2)).any (fun c => c = CardType.DOOM) = true
    · rw [if_neg (not_not_intro hcomp)]
      refine ⟨by simpa using And.intro hcov hcomp, fun h => absurd hcov h, fun _ h => absurd hcomp h⟩
    · rw [if_pos hcomp]
      refine ⟨?_, fun h => absurd hcov h, fun _ _ => rfl⟩
      simp only [StepOut.error]
      constructor
      · intro h; exact absurd h (by simp)
      · intro ⟨_, h1, h2⟩; exact absurd ⟨h1, h2⟩ hcomp
  · rw [if_pos hcov]
    refine ⟨?_, fun _ => rfl, fun h _ => absurd h hcov⟩
    simp only [StepOut.error]
    constructor
    · intro h; exact absurd h (by simp)
    · intro ⟨h0, _, _⟩; exact absurd h0 hcov

/-- Concrete state used by several witnesses: `sampleRoom` waiting for
the dealer's composition. -/
def setupGame : GameState := { gTurns with phase := Phase.DEALER_SETUP }

def setupRoom : Room := { sampleRoom with game := some setupGame }

/-- Witness for C3 at a concrete DEALER_SETUP state: the composition
A:SAFE B:SAFE C:DOOM covers all alive seats and mixes both kinds, so it
is accepted. -/
theorem dealerSet_accept_iff_witness :
    (handleDealerSet setupRoom 1
      [(0, CardType.SAFE), (1, CardType.SAFE), (2, CardType.DOOM)] []).error = none :=
  ((dealerSet_accept_iff setupRoom setupGame
    [(0, CardType.SAFE), (1, CardType.SAFE), (2, CardType.DOOM)] [] rfl rfl).1).mpr
    (by decide)

-- ==========================================
-- C4: cheese-inverted elimination at reveal
-- ==========================================

/-- C4: for every reveal — one step of the FINAL_REVEAL sequence, in
whatever phase and for whatever seat it is run, or a drink during TURNS
— the revealed seat is eliminated iff
`(card = DOOM) XOR hasCheese(seat)`, and the reveal changes neither the
cheese seat set nor any player's cheese flag.  The FINAL_REVEAL half
holds with no phase or turn hypothesis; the drink half is guarded by
exactly the conditions under which `handleDrink` accepts the drink. -/
theorem reveal_elim_xor (r : Room) (g : GameState) (seat : Int) (c : CardType)
    (now : Nat) (hg : r.game = some g)
    (hcard : lookupCard r.cardBySeat seat = some c) :
    ((isPlayerAlive (revealStep r seat).1 seat =
      (!(xor (decide (c = CardType.DOOM)) (decide (seat ∈ g.cheeseSeats))) &&
        isPlayerAlive r seat)) ∧
     ((revealStep r seat).1.game.map (fun g2 => g2.cheeseSeats) =
       some g.cheeseSeats) ∧
     ((revealStep r seat).1.players.map
         (fun pc => (pc.player.seat, pc.player.hasCheese)) =
       r.players.map (fun pc => (pc.player.seat, pc.player.hasCheese)))) ∧
    (g.phase = Phase.TURNS → seat = g.turnSeat → seat ∉ g.actedSeats →
     ((isPlayerAlive (handleDrink r seat now).room seat =
       (!(xor (decide (c = CardType.DOOM)) (decide (seat ∈ g.cheeseSeats))) &&
         isPlayerAlive r seat)) ∧
      ((handleDrink r seat now).room.game.map (fun g2 => g2.cheeseSeats) =
        some g.cheeseSeats) ∧
      ((handleDrink r seat now).room.players.map
          (fun pc => (pc.player.seat, pc.player.hasCheese)) =
        r.players.map (fun pc => (pc.player.seat, pc.player.hasCheese))))) := by
  constructor
  · simp only [revealStep, hg, hcard]
    by_cases hch : seat ∈ g.cheeseSeats <;> cases c <;>
      simp only [hch, Option.some.injEq, reduceCtorEq, decide_True, decide_False,
        reduceIte]
    case pos.SAFE =>
      refine ⟨?_, ?_, ?_⟩
      · rw [isPlayerAlive_congr _ _ _ (mapGame_players _ _)]
        simp [elimPair_players_dead, hch]
      · have h1 : (mapGame (elimPair r seat).1 (fun g2 =>
            { g2 with facedownSeats := g2.facedownSeats.filter (fun s => s ≠ seat) })).game.map
              (fun g2 => g2.cheeseSeats) =
            (elimPair r seat).1.game.map (fun g2 => g2.cheeseSeats) := by
          cases hgg : (elimPair r seat).1.game <;> simp [mapGame, hgg]
        rw [h1, elimPair_game_cheese, hg]
        rfl
      · rw [mapGame_players, elimPair_players_cheese]
    case pos.DOOM =>
      refine ⟨?_, ?_, ?_⟩
      · rw [isPlayerAlive_congr _ _ _ (mapGame_players _ _)]
        simp [hch]
      · simp [mapGame, hg]
      · rw [mapGame_players]
    case neg.SAFE =>
      refine ⟨?_, ?_, ?_⟩
      · rw [isPlayerAlive_congr _ _ _ (mapGame_players _ _)]
        simp [hch]
      · simp [mapGame, hg]
      · rw [mapGame_players]
    case neg.DOOM =>
      refine ⟨?_, ?_, ?_⟩
      · rw [isPlayerAlive_congr _ _ _ (mapGame_players _ _)]
        simp [elimPair_players_dead, hch]
      · have h1 : (mapGame (elimPair r seat).1 (fun g2 =>
            { g2 with facedownSeats := g2.facedownSeats.filter (fun s => s ≠ seat) })).game.map
              (fun g2 => g2.cheeseSeats) =
            (elimPair r seat).1.game.map (fun g2 => g2.cheeseSeats) := by
          cases hgg : (elimPair r seat).1.game <;> simp [mapGame, hgg]
        rw [h1, elimPair_game_cheese, hg]
        rfl
      · rw [mapGame_players, elimPair_players_cheese]
  · intro hph hts hact
    simp only [handleDrink, hg, hcard]
    rw [hph]
    rw [if_neg (by simp)]
    rw [if_neg (by simp [hts])]
    rw [if_neg hact]
    by_cases hch : seat ∈ g.cheeseSeats <;> cases c <;>
      simp only [hch, Option.some.injEq, reduceCtorEq, decide_True, decide_False,
        reduceIte]
    case pos.SAFE =>
      refine ⟨?_, ?_, ?_⟩
      · rw [isPlayerAlive_congr _ _ _ (advanceTurn_players _ now)]
        simp [elimPair_players_dead, hch]
      · rw [advanceTurn_game_cheese, elimPair_game_cheese]
        simp [mapGame, hg]
      · rw [advanceTurn_players, elimPair_players_cheese, mapGame_players]
    case pos.DOOM =>
      refine ⟨?_, ?_, ?_⟩
      · rw [isPlayerAlive_congr _ _ _ (advanceTurn_players _ now),
          isPlayerAlive_congr _ _ _ (mapGame_players r _)]
        simp [hch]
      · rw [advanceTurn_game_cheese]
        simp [mapGame, hg]
      · rw [advanceTurn_players, mapGame_players]
    case neg.SAFE =>
      refine ⟨?_, ?_, ?_⟩
      · rw [isPlayerAlive_congr _ _ _ (advanceTurn_players _ now),
          isPlayerAlive_congr _ _ _ (mapGame_players r _)]
        simp [hch]
      · rw [advanceTurn_game_cheese]
        simp [mapGame, hg]
      · rw [advanceTurn_players, mapGame_players]
    case neg.DOOM =>
      refine ⟨?_, ?_, ?_⟩
      · rw [isPlayerAlive_congr _ _ _ (advanceTurn_players _ now)]
        simp [elimPair_players_dead, hch]
      · rw [advanceTurn_game_cheese, elimPair_game_cheese]
        simp [mapGame, hg]
      · rw [advanceTurn_players, elimPair_players_cheese, mapGame_players]

/-- `sampleRoom` moved to phase FINAL_REVEAL with seats 0 and 2 still
facedown: the state in which the reveal sequence actually runs
`revealStep`. -/
def frGame : GameState :=
  { gTurns with phase := Phase.FINAL_REVEAL, facedownSeats := [0, 2] }

def frRoom : Room := { sampleRoom with game := some frGame }

/-- Witness for C4: seat 2 holds DOOM and no cheese, so its drink in
`sampleRoom` eliminates it, and so does its FINAL_REVEAL step in
`frRoom` (phase FINAL_REVEAL, seat 2 not the turn seat's drink). -/
theorem reveal_elim_xor_witness :
    isPlayerAlive (handleDrink sampleRoom 2 0).room 2 = false ∧
    isPlayerAlive (revealStep frRoom 2).1 2 = false := by
  constructor
  · have h := ((reveal_elim_xor sampleRoom gTurns 2 CardType.DOOM 0 rfl
      (by decide)).2 rfl rfl (by decide)).1
    simpa using h
  · have h := (reveal_elim_xor frRoom frGame 2 CardType.DOOM 0 rfl
      (by decide)).1.1
    simpa using h

-- ==========================================
-- C2: one action per seat per round
-- ==========================================

/-- A TURNS state in which seat 1 has already acted while the turn is
at seat 2. -/
def actedRoom : Room :=
  { sampleRoom with game := some { gTurns with actedSeats := [1] } }

/-- Counterexample to C2 as stated: seat 1 has already acted in this
round, yet its swap intent is rejected with NOT_YOUR_TURN (not
ALREADY_ACTED), and its drink intent is silently ignored with no error
at all. -/
theorem acted_seat_counterexample :
    (handleSwap actedRoom 1 0 0).error = some "NOT_YOUR_TURN" ∧
    (handleSwap actedRoom 1 0 0).error ≠ some "ALREADY_ACTED" ∧
    handleDrink actedRoom 1 0 = pureOut actedRoom := by
  refine ⟨by decide, by decide, by decide⟩

/-- C2 (amended): a second action intent from a seat already in
`actedSeats` never changes the room state and never emits an event;
swap and steal-cheese intents are rejected with ALREADY_ACTED only when
the seat is still the turn seat and with NOT_YOUR_TURN otherwise
(steal-cheese yields INVALID_ACTION when the cheese variant is off),
while drink intents are ignored silently with no error. -/
theorem acted_seat_rejected (r : Room) (g : GameState) (seat : Int) (now : Nat)
    (hg : r.game = some g) (hph : g.phase = Phase.TURNS)
    (hacted : seat ∈ g.actedSeats) :
    handleDrink r seat now = pureOut r ∧
    (∀ t, handleSwap r seat t now =
      ⟨r, [], some (if seat = g.turnSeat then "ALREADY_ACTED" else "NOT_YOUR_TURN")⟩) ∧
    (∀ t, handleStealCheese r seat t now =
      ⟨r, [], some (if r.settings.cheeseEnabled = false then "INVALID_ACTION"
        else if seat = g.turnSeat then "ALREADY_ACTED" else "NOT_YOUR_TURN")⟩) := by
  refine ⟨?_, ?_, ?_⟩
  · simp only [handleDrink, hg]
    rw [hph]
    rw [if_neg (by simp)]
    by_cases hts : seat = g.turnSeat
    · rw [if_neg (by simp [hts]), if_pos hacted]
    · rw [if_pos hts]
  · intro t
    simp only [handleSwap, hg]
    rw [hph]
    rw [if_neg (by simp)]
    by_cases hts : seat = g.turnSeat
    · rw [if_neg (by simp [hts]), if_pos hacted, if_pos hts]
    · rw [if_pos hts, if_neg hts]
  · intro t
    simp only [handleStealCheese, hg]
    rw [hph]
    rw [if_neg (by simp)]
    by_cases hcheese : r.settings.cheeseEnabled = false
    · rw [if_pos hcheese, if_pos hcheese]
    · rw [if_neg hcheese, if_neg hcheese]
      by_cases hts : seat = g.turnSeat
      · rw [if_neg (by simp [hts]), if_pos hacted, if_pos hts]
      · rw [if_pos hts, if_neg hts]

/-- Witness for C2 (amended) at `actedRoom`, seat 1. -/
theorem acted_seat_rejected_witness :
    handleDrink actedRoom 1 0 = pureOut actedRoom :=
  (acted_seat_rejected actedRoom { gTurns with actedSeats := [1] } 1 0 rfl rfl
    (by decide)).1

-- ==========================================
-- C7: cardBySeat lifecycle
-- ==========================================

/-- A concrete game trace: start a 3-player game, accept the dealer's
composition, run both non-dealer turns, trigger the final reveal and
reach ROUND_END. -/
def c7r0 : Room :=
  { id := "room1", joinCode := "ABCDEF", hostId := "A",
    settings := lobbySettings,
    players := [mkConn "A" "alice" 0 true, mkConn "B" "bob" 1 true, mkConn "C" "carol" 2 true],
    status := Status.LOBBY, game := none, cardBySeat := [],
    rematchVotes := [], isVotingPhase := false, pendingNextDealer := none }

def c7r1 : Room := (step c7r0 0 (Op.startGameOp "A" 1)).1
def c7r2 : Room := (step c7r1 0 (Op.dealerSetOp "B" [CardType.SAFE, CardType.SAFE, CardType.DOOM] [])).1
def c7r3 : Room := (step c7r2 0 Op.dealingTimerOp).1
def c7r4 : Room := (step c7r3 0 (Op.actionDrink "C")).1
def c7r5 : Room := (step c7r4 0 (Op.actionDrink "A")).1
def c7r6 : Room := (step c7r5 0 (Op.startRevealOp "B")).1

/-- Counterexample to C7 as stated: after a full round played through
the engine, the room sits in phase ROUND_END with the round's
`cardBySeat` still fully populated — the table is not cleared at
ROUND_END. -/
theorem roundEnd_cards_counterexample :
    c7r6.game.map (fun g => g.phase) = some Phase.ROUND_END ∧
    c7r6.cardBySeat = [(0, CardType.SAFE), (1, CardType.SAFE), (2, CardType.DOOM)] ∧
    c7r6.cardBySeat ≠ [] := by
  refine ⟨by decide, by decide, by decide⟩

/-- C7 (amended): `cardBySeat` is populated exactly when a round enters
DEALING (at acceptance of the dealer's composition); it is NOT cleared
at ROUND_END — `startNewRound` leaves it untouched — and it is cleared
at `returnToLobby` (and overwritten at the next acceptance). -/
theorem cards_lifecycle (r : Room) (dealerSeat : Int)
    (asg : List (Int × CardType)) (sh : List Int)
    (hok : (handleDealerSet r dealerSeat asg sh).error = none) :
    ((handleDealerSet r dealerSeat asg sh).room.cardBySeat =
      asg.foldl (fun m kv => setCard m kv.1 kv.2) []) ∧
    ((handleDealerSet r dealerSeat asg sh).room.game.map (fun g => g.phase) =
      some Phase.DEALING) ∧
    (∀ r' : Room, (startNewRound r').room.cardBySeat = r'.cardBySeat) ∧
    (∀ r' : Room, (returnToLobby r').1.cardBySeat = []) := by
  refine ⟨?_, ?_, ?_, fun r' => rfl⟩
  · revert hok
    unfold handleDealerSet
    split
    · intro h; exact absurd h (by simp)
    next g heq =>
      split
      · intro h; exact absurd h (by simp)
      · split
        · intro h; exact absurd h (by simp)
        · try dsimp only
          split
          · intro h; exact absurd h (by simp)
          · try dsimp only
            split
            · intro h; exact absurd h (by simp)
            · intro _
              dsimp only
              split <;> simp [mapGame]
  · revert hok
    unfold handleDealerSet
    split
    · intro h; exact absurd h (by simp)
    next g heq =>
      split
      · intro h; exact absurd h (by simp)
      · split
        · intro h; exact absurd h (by simp)
        · try dsimp only
          split
          · intro h; exact absurd h (by simp)
          · try dsimp only
            split
            · intro h; exact absurd h (by simp)
            · intro _
              dsimp only
              split
              · simp [mapGame, heq]
              · simp [mapGame, heq]
  · intro r'
    unfold startNewRound
    split
    · rfl
    · simp [mapGame]

/-- Witness for C7 (amended) at the concrete accepted composition of
the trace above. -/
theorem cards_lifecycle_witness :
    (handleDealerSet c7r1 1
      [(0, CardType.SAFE), (1, CardType.SAFE), (2, CardType.DOOM)] []).room.cardBySeat =
      [(0, CardType.SAFE), (1, CardType.SAFE), (2, CardType.DOOM)] := by
  have h := (cards_lifecycle c7r1 1
    [(0, CardType.SAFE), (1, CardType.SAFE), (2, CardType.DOOM)] [] (by decide)).1
  simpa using h

-- ==========================================
-- C6: rematch vote resolution
-- ==========================================

/-- C6: during the voting phase (given the invariant that every
recorded yes-vote belongs to a currently-connected seat, which holds
because votes are only cast over live sockets and are deleted on
disconnect), the vote resolves to STARTING iff the yes-set equals the
non-empty set of connected seats; and on resolution the room returns to
LOBBY with the game discarded, readiness cleared, cheese cleared and
every player reset to alive. -/
theorem vote_resolution (r : Room)
    (hvp : r.isVotingPhase = true)
    (hsub : ∀ s ∈ r.rematchVotes, s ∈ getConnectedSeats r) :
    ((∃ v n, Event.voteUpdate v n "STARTING" ∈ (checkVoteResolution r).2) ↔
      ((∀ s, s ∈ r.rematchVotes ↔ s ∈ getConnectedSeats r) ∧
        getConnectedSeats r ≠ [])) ∧
    (((∀ s, s ∈ r.rematchVotes ↔ s ∈ getConnectedSeats r) ∧
        getConnectedSeats r ≠ []) →
      ((checkVoteResolution r).1.status = Status.LOBBY ∧
       (checkVoteResolution r).1.game = none ∧
       (checkVoteResolution r).1.isVotingPhase = false ∧
       ∀ c ∈ (checkVoteResolution r).1.players,
         c.player.ready = false ∧ c.player.alive = true ∧
         c.player.hasCheese = false)) := by
  unfold checkVoteResolution
  rw [if_neg (by simp [hvp])]
  by_cases hC : (∀ s ∈ getConnectedSeats r, s ∈ r.rematchVotes) ∧
      (getConnectedSeats r).length > 0
  · rw [if_pos hC]
    constructor
    · constructor
      · intro _
        refine ⟨fun s => ⟨fun hs => hsub s hs, fun hs => hC.1 s hs⟩, ?_⟩
        intro hnil
        rw [hnil] at hC
        simpa using hC.2
      · intro _
        exact ⟨r.rematchVotes, (getConnectedSeats r).length, List.mem_cons_self _ _⟩
    · intro _
      refine ⟨rfl, rfl, rfl, ?_⟩
      intro c hc
      simp only [returnToLobby, List.mem_map] at hc
      obtain ⟨c0, _, rfl⟩ := hc
      exact ⟨rfl, rfl, rfl⟩
  · rw [if_neg hC]
    constructor
    · constructor
      · intro ⟨v, n, hmem⟩
        exact absurd hmem (List.not_mem_nil _)
      · intro ⟨hiff, hnil⟩
        exact absurd ⟨fun s hs => (hiff s).mpr hs,
          List.length_pos_of_ne_nil hnil⟩ hC
    · intro ⟨hiff, hnil⟩
      exact absurd ⟨fun s hs => (hiff s).mpr hs,
        List.length_pos_of_ne_nil hnil⟩ hC

/-- A GAME_END state in rematch voting where every connected seat has
voted yes. -/
def votingRoom : Room :=
  { sampleRoom with
    game := some { gTurns with phase := Phase.GAME_END },
    isVotingPhase := true, rematchVotes := [0, 1, 2] }

/-- Witness for C6: with all three connected seats voting yes, the
room returns to LOBBY. -/
theorem vote_resolution_witness :
    (checkVoteResolution votingRoom).1.status = Status.LOBBY := by
  have hconn : getConnectedSeats votingRoom = [0, 1, 2] := by decide
  refine ((vote_resolution votingRoom rfl ?_).2 ?_).1
  · intro s hs
    rw [hconn]
    exact hs
  · refine ⟨fun s => ?_, by rw [hconn]; simp⟩
    rw [hconn]
    exact Iff.rfl

-- ==========================================
-- C8: session-based join paths
-- ==========================================

/-- C8: for a join request whose sessionId matches an existing player of
the target room, the session check runs before the name / capacity /
in-game checks: a connected match fails with SESSION_ALREADY_IN_ROOM
and the registry is unchanged (no token or player created); a
disconnected match returns that player's existing token with
`isReconnect = true`, again with the registry unchanged — in both
cases irrespective of the room being full or a game being in
progress. -/
theorem session_join_paths (m : RoomManager) (joinCode name : String)
    (avatarId : Nat) (sessionId npid ntok roomId : String) (room : Room)
    (hit : SessionHit)
    (h1 : lookupStr m.roomsByCode joinCode.toUpper = some roomId)
    (h2 : lookupStr m.rooms roomId = some room)
    (h3 : findPlayerBySessionId room sessionId = some hit) :
    (hit.connected = true →
      joinRoom m joinCode name avatarId sessionId npid ntok =
        (JoinResult.err "SESSION_ALREADY_IN_ROOM", m)) ∧
    (hit.connected = false →
      joinRoom m joinCode name avatarId sessionId npid ntok =
        (JoinResult.ok room.id hit.token hit.playerId true, m)) := by
  constructor <;> intro hc <;> simp [joinRoom, h1, h2, h3, hc]

/-- A full, in-game room whose seat-3 player is disconnected with
session `sessH`. -/
def discConn : PlayerConn :=
  { player := { id := "H", name := "hana", avatarId := 0, seat := 3,
                alive := true, connected := false, ready := true, hasCheese := false },
    ws := none, token := "tokH", sessionId := "sessH", disconnectedAt := some 0 }

def fullRoom : Room :=
  { id := "room8", joinCode := "ABCDEF", hostId := "A",
    settings := lobbySettings,
    players := [mkConn "A" "a" 0 true, mkConn "B" "b" 1 true, mkConn "C" "c" 2 true,
                discConn, mkConn "E" "e" 4 true, mkConn "F" "f" 5 true,
                mkConn "G" "g" 6 true, mkConn "D" "d" 7 true],
    status := Status.IN_GAME, game := some gTurns, cardBySeat := [],
    rematchVotes := [], isVotingPhase := false, pendingNextDealer := none }

def mgr8 : RoomManager :=
  { rooms := [("rid", fullRoom)], roomsByCode := [("ABCDEF".toUpper, "rid")],
    playerToRoom := [], tokenToPlayer := [] }

/-- Witness for C8: rejoining with the disconnected player's session in
a room that is both full and in game returns the existing token as a
reconnect, creating nothing. -/
theorem session_join_paths_witness :
    joinRoom mgr8 "ABCDEF" "zed" 0 "sessH" "np" "nt" =
      (JoinResult.ok "room8" "tokH" "H" true, mgr8) := by
  have h := (session_join_paths mgr8 "ABCDEF" "zed" 0 "sessH" "np" "nt" "rid"
    fullRoom { playerId := "H", token := "tokH", connected := false }
    (by simp [mgr8, lookupStr]) (by simp [mgr8, lookupStr]) (by decide)).2 rfl
  simpa using h

-- ==========================================
-- C10: socket JOIN rebinds any held token
-- ==========================================

/-- C10: a socket JOIN presenting any token held by a member of the room
succeeds unconditionally — `reconnectPlayer` has no connected-state
check: it rebinds the member to the new socket, marks them connected,
clears `disconnectedAt` and reports success, and the JOIN handler then
sends the STATE snapshot instead of any error; all of this regardless of
whether the member already had a live socket (the connected-session
rejection exists only in the HTTP join path). -/
theorem join_rebinds_any_token (r : Room) (token : String) (ws : Nat)
    (conn : PlayerConn)
    (hfind : r.players.find? (fun c => c.token = token) = some conn) :
    ((reconnectPlayer r token ws).2.2 = some conn.player.id) ∧
    ((reconnectPlayer r token ws).2.1 = [Event.playerReconnected conn.player.seat]) ∧
    (∃ c', findConnById (reconnectPlayer r token ws).1 conn.player.id = some c' ∧
       c'.ws = some ws ∧ c'.player.connected = true ∧ c'.disconnectedAt = none) ∧
    (∀ pid name avatarId sessionId,
      joinStep r token pid name avatarId sessionId ws =
        ((reconnectPlayer r token ws).1,
         [Event.playerReconnected conn.player.seat,
          fullStateEvent (reconnectPlayer r token ws).1 conn.player.id])) := by
  refine ⟨by simp only [reconnectPlayer, hfind], by simp only [reconnectPlayer, hfind], ?_, ?_⟩
  · have hmem : conn ∈ r.players := List.mem_of_find?_eq_some hfind
    simp only [reconnectPlayer, hfind, findConnById]
    rw [find?_by_id_after_update r.players conn.player.id
      (fun c => { c with ws := some ws,
                         player := { c.player with connected := true },
                         disconnectedAt := none })
      (fun c => rfl)]
    cases hfo : r.players.find? (fun c => decide (c.player.id = conn.player.id)) with
    | none =>
      exfalso
      have := List.find?_eq_none.mp hfo conn hmem
      simp at this
    | some c0 =>
      have hid : c0.player.id = conn.player.id := by
        have := List.find?_some hfo
        simpa using this
      refine ⟨_, rfl, ?_, ?_, ?_⟩ <;> simp [hid]
  · intro pid name avatarId sessionId
    simp [joinStep, reconnectPlayer, hfind]

/-- A variant of `sampleRoom` useful as a witness: player B is
currently connected on socket 1. -/
theorem join_rebinds_any_token_witness :
    (reconnectPlayer sampleRoom "tokB" 7).2.2 = some "B" :=
  (join_rebinds_any_token sampleRoom "tokB" 7 (mkConn "B" "bob" 1 true)
    (by decide)).1

-- ==========================================
-- C9: turn deadlines and the timeout drink
-- ==========================================

/-- The deadline the engine computes for the current turn owner. -/
def deadlineValue (r : Room) (conn : PlayerConn) (now : Nat) : Nat :=
  now +
    (if conn.player.connected = true then r.settings.turnTimer
     else DISCONNECTED_TURN_TIMEOUT) * 1000

theorem setTurnDeadline_eq (r : Room) (g : GameState) (conn : PlayerConn) (now : Nat)
    (hg : r.game = some g) (hfind : findConnBySeat r g.turnSeat = some conn) :
    setTurnDeadline r now =
      { r with game := some { g with deadlineTs := some (deadlineValue r conn now) } } := by
  simp [setTurnDeadline, deadlineValue, hg, hfind]

theorem disconnectVotePart_not_voting (r : Room) (s : Int)
    (h : r.isVotingPhase = false) : disconnectVotePart r s = (r, []) := by
  simp [disconnectVotePart, h]

theorem disconnectTurnPart_turns (r : Room) (g : GameState) (s : Int) (now : Nat)
    (hg : r.game = some g) (hph : g.phase = Phase.TURNS) (hts : g.turnSeat = s) :
    disconnectTurnPart r s now = setTurnDeadline r now := by
  simp [disconnectTurnPart, hg, hph, hts]

theorem disconnectDealerSetupPart_skip (r : Room) (s : Int)
    (sh : List Int) (co : List Bool) (chs : List Int)
    (h : r.game.map (fun g => g.phase) = some Phase.TURNS) :
    disconnectDealerSetupPart r s sh co chs = pureOut r := by
  cases hg : r.game with
  | none => rw [hg] at h; simp at h
  | some g =>
    rw [hg] at h
    simp only [Option.map] at h
    have h2 : g.phase = Phase.TURNS := by simpa using h
    simp [disconnectDealerSetupPart, hg, h2]

theorem disconnectRevealPart_skip (r : Room) (s : Int)
    (h : r.game.map (fun g => g.phase) = some Phase.TURNS) :
    disconnectRevealPart r s = pureOut r := by
  cases hg : r.game with
  | none => rw [hg] at h; simp at h
  | some g =>
    rw [hg] at h
    simp only [Option.map] at h
    have h2 : g.phase = Phase.TURNS := by simpa using h
    simp [disconnectRevealPart, hg, h2]

/-- C9: whenever the turn deadline is armed, it is `now` plus
`settings.turnTimer` seconds for a connected turn owner and the shorter
`DISCONNECTED_TURN_TIMEOUT` otherwise; a mid-TURNS disconnect of the
turn owner re-arms the deadline with the disconnected value; and when
the armed timer fires while the phase is still TURNS the engine
performs a drink on behalf of the current turn seat. -/
theorem turn_deadline_policy :
    (∀ (r : Room) (g : GameState) (conn : PlayerConn) (now : Nat),
      r.game = some g → findConnBySeat r g.turnSeat = some conn →
      (setTurnDeadline r now).game.map (fun g2 => g2.deadlineTs) =
        some (some (deadlineValue r conn now))) ∧
    (∀ (r : Room) (g : GameState) (conn : PlayerConn) (pid : String) (now : Nat)
        (sh : List Int) (co : List Bool) (chs : List Int),
      findConnById r pid = some conn →
      r.status = Status.IN_GAME → r.isVotingPhase = false →
      r.game = some g → g.phase = Phase.TURNS →
      g.turnSeat = conn.player.seat →
      findConnBySeat r g.turnSeat = some conn →
      (disconnectPlayer r pid now sh co chs).room.game.map (fun g2 => g2.deadlineTs) =
        some (some (now + DISCONNECTED_TURN_TIMEOUT * 1000))) ∧
    (∀ (r : Room) (g : GameState) (now : Nat),
      r.game = some g → g.phase = Phase.TURNS →
      handleTurnTimeout r now = handleDrink r g.turnSeat now) := by
  refine ⟨?_, ?_, ?_⟩
  · intro r g conn now hg hfind
    rw [setTurnDeadline_eq r g conn now hg hfind]
    rfl
  · intro r g conn pid now sh co chs hfc hst hvp hg hph hts hfs
    have hid : conn.player.id = pid := by
      have := List.find?_some hfc
      simpa using this
    have hup : ∀ (l : List PlayerConn),
        (updateConnById l pid (fun c =>
          { c with ws := none,
                   player := { c.player with connected := false },
                   disconnectedAt := some now })).find?
            (fun c => decide (c.player.seat = g.turnSeat)) =
          (l.find? (fun c => decide (c.player.seat = g.turnSeat))).map
            (fun c => if c.player.id = pid then
              { c with ws := none,
                       player := { c.player with connected := false },
                       disconnectedAt := some now } else c) := by
      intro l
      unfold updateConnById
      apply find?_map_pres
      intro a
      by_cases h : a.player.id = pid <;> simp [h]
    simp only [disconnectPlayer, hfc]
    rw [if_neg (by rw [hst]; simp)]
    dsimp only
    generalize hR : ({ r with players := updateConnById r.players pid (fun c =>
      { c with ws := none, player := { c.player with connected := false },
               disconnectedAt := some now }) } : Room) = R1
    have hR1game : R1.game = some g := by rw [← hR]; exact hg
    have hR1vp : R1.isVotingPhase = false := by rw [← hR]; exact hvp
    have hR1find : findConnBySeat R1 g.turnSeat = some
        { conn with ws := none, player := { conn.player with connected := false },
                    disconnectedAt := some now } := by
      have hfs2 : r.players.find? (fun c => decide (c.player.seat = g.turnSeat)) =
          some conn := hfs
      rw [← hR]
      show (updateConnById r.players pid _).find? _ = _
      rw [hup r.players, hfs2]
      simp [hid]
    rw [disconnectVotePart_not_voting _ _ hR1vp]
    dsimp only
    rw [disconnectTurnPart_turns R1 g conn.player.seat now hR1game hph hts]
    rw [setTurnDeadline_eq R1 g _ now hR1game hR1find]
    rw [disconnectDealerSetupPart_skip _ _ sh co chs (by simp [hph])]
    dsimp only [pureOut]
    rw [disconnectRevealPart_skip _ _ (by simp [hph])]
    dsimp only [pureOut]
    simp [deadlineValue]
  · intro r g now hg hph
    simp only [handleTurnTimeout, hg]
    rw [if_pos hph]

/-- Witness for C9: in `sampleRoom` the turn owner (seat 2) is
connected, so the armed deadline is `now + 30 s`. -/
theorem turn_deadline_policy_witness :
    (setTurnDeadline sampleRoom 0).game.map (fun g2 => g2.deadlineTs) =
      some (some 30000) := by
  have h := turn_deadline_policy.1 sampleRoom gTurns (mkConn "C" "carol" 2 true) 0
    rfl (by decide)
  simpa [deadlineValue, lobbySettings] using h

-- ==========================================
-- C1: secret containment
-- ==========================================

/-- An event list carrying no card identity at all. -/
def noCards (evs : List Event) : Prop := ∀ e ∈ evs, eventCards e = []

/-- Every card identity contained in any event of the list is a REVEAL
for exactly that seat, and the revealed card is the seat's entry in the
given room's hidden table. -/
def cardsOk (r : Room) (evs : List Event) : Prop :=
  ∀ e ∈ evs, ∀ s c, (s, c) ∈ eventCards e →
    e = Event.reveal s (some c) ∧ lookupCard r.cardBySeat s = some c

theorem cardsOk_of_noCards {evs : List Event} (h : noCards evs) (r : Room) :
    cardsOk r evs := by
  intro e he s c hsc
  rw [h e he] at hsc
  exact absurd hsc (List.not_mem_nil _)

theorem noCards_append {evs1 evs2 : List Event} (h1 : noCards evs1)
    (h2 : noCards evs2) : noCards (evs1 ++ evs2) := by
  intro e he
  rcases List.mem_append.mp he with h | h
  · exact h1 e h
  · exact h2 e h

theorem noCards_cons {e : Event} {evs : List Event} (h : eventCards e = [])
    (h2 : noCards evs) : noCards (e :: evs) := by
  intro x hx
  rcases List.mem_cons.mp hx with rfl | hx2
  · exact h
  · exact h2 x hx2

theorem cardsOk_append {r : Room} {evs1 evs2 : List Event}
    (h1 : cardsOk r evs1) (h2 : cardsOk r evs2) : cardsOk r (evs1 ++ evs2) := by
  intro e he
  rcases List.mem_append.mp he with h | h
  · exact h1 e h
  · exact h2 e h

theorem cardsOk_cons {r : Room} {e : Event} {evs : List Event}
    (h : ∀ s c, (s, c) ∈ eventCards e →
      e = Event.reveal s (some c) ∧ lookupCard r.cardBySeat s = some c)
    (h2 : cardsOk r evs) : cardsOk r (e :: evs) := by
  intro x hx
  rcases List.mem_cons.mp hx with rfl | hx2
  · exact h
  · exact h2 x hx2

theorem cardsOk_congr {r r' : Room} {evs : List Event}
    (hcs : r.cardBySeat = r'.cardBySeat) (h : cardsOk r evs) : cardsOk r' evs := by
  intro e he s c hsc
  obtain ⟨h1, h2⟩ := h e he s c hsc
  exact ⟨h1, by rw [← hcs]; exact h2⟩

theorem noCards_phaseEvent (r : Room) : noCards (phaseEvent r) := by
  intro e he
  unfold phaseEvent at he
  cases hg : r.game with
  | none => rw [hg] at he; exact absurd he (List.not_mem_nil _)
  | some g =>
    rw [hg] at he
    rcases List.mem_singleton.mp he with rfl
    rfl

theorem noCards_awaitingReveal (r : Room) : noCards (awaitingReveal r).events := by
  unfold awaitingReveal
  split
  · intro e he; exact absurd he (List.not_mem_nil _)
  · exact noCards_phaseEvent _

theorem noCards_advanceTurn (r : Room) (now : Nat) :
    noCards (advanceTurn r now).events := by
  unfold advanceTurn
  split
  · intro e he; exact absurd he (List.not_mem_nil _)
  · dsimp only
    split
    · exact noCards_awaitingReveal _
    · exact noCards_phaseEvent _

theorem noCards_elimPair (r : Room) (s : Int) : noCards (elimPair r s).2 := by
  intro e he
  rcases List.mem_singleton.mp he with rfl
  rfl

theorem noCards_returnToLobby (r : Room) : noCards (returnToLobby r).2 := by
  intro e he
  rcases List.mem_singleton.mp he with rfl
  rfl

theorem noCards_checkVoteResolution (r : Room) :
    noCards (checkVoteResolution r).2 := by
  unfold checkVoteResolution
  split
  · intro e he; exact absurd he (List.not_mem_nil _)
  · dsimp only
    split
    · refine noCards_cons rfl ?_
      exact noCards_returnToLobby _
    · intro e he; exact absurd he (List.not_mem_nil _)

theorem noCards_handleRematchVote (r : Room) (seat : Int) (vote : Bool) :
    noCards (handleRematchVote r seat vote).events := by
  unfold handleRematchVote
  split
  · intro e he; exact absurd he (List.not_mem_nil _)
  · dsimp only
    refine noCards_cons rfl ?_
    exact noCards_checkVoteResolution _

theorem noCards_endGame (r : Room) : noCards (endGame r).events := by
  unfold endGame
  split
  · intro e he; exact absurd he (List.not_mem_nil _)
  · dsimp only
    refine noCards_cons rfl (noCards_cons rfl ?_)
    intro e he; exact absurd he (List.not_mem_nil _)

theorem noCards_startNewRound (r : Room) : noCards (startNewRound r).events := by
  unfold startNewRound
  split
  · intro e he; exact absurd he (List.not_mem_nil _)
  · refine noCards_cons rfl ?_
    intro e he; exact absurd he (List.not_mem_nil _)

theorem noCards_startNewRoundSetup (r : Room) :
    noCards (startNewRoundSetup r).events := by
  unfold startNewRoundSetup
  split
  · intro e he; exact absurd he (List.not_mem_nil _)
  · dsimp only
    split
    · exact noCards_endGame _
    · exact noCards_phaseEvent _

theorem noCards_roundEndTimerFire (r : Room) :
    noCards (roundEndTimerFire r).events := by
  unfold roundEndTimerFire
  split
  · intro e he; exact absurd he (List.not_mem_nil _)
  · split
    · intro e he; exact absurd he (List.not_mem_nil _)
    · exact noCards_startNewRoundSetup _

theorem noCards_checkRoundEnd (r : Room) : noCards (checkRoundEnd r).events := by
  unfold checkRoundEnd
  split
  · intro e he; exact absurd he (List.not_mem_nil _)
  · split
    · exact noCards_endGame _
    · exact noCards_startNewRound _

theorem noCards_setTurnDeadline_startTurns (r : Room) (now : Nat) :
    noCards (startTurns r now).events := by
  unfold startTurns
  split
  · intro e he; exact absurd he (List.not_mem_nil _)
  · dsimp only
    split
    · exact noCards_awaitingReveal _
    · exact noCards_phaseEvent _

theorem noCards_ite_cheese (P : Prop) [Decidable P] (cs : List Int) :
    noCards (if P then [Event.cheeseUpdate cs] else []) := by
  split
  · intro e he
    rcases List.mem_singleton.mp he with rfl
    rfl
  · intro e he; exact absurd he (List.not_mem_nil _)

theorem noCards_handleDealerSet (r : Room) (ds : Int)
    (asg : List (Int × CardType)) (sh : List Int) :
    noCards (handleDealerSet r ds asg sh).events := by
  unfold handleDealerSet
  split
  · intro e he; exact absurd he (List.not_mem_nil _)
  · split
    · intro e he; exact absurd he (List.not_mem_nil _)
    · split
      · intro e he; exact absurd he (List.not_mem_nil _)
      · try dsimp only
        split
        · intro e he; exact absurd he (List.not_mem_nil _)
        · try dsimp only
          split
          · intro e he; exact absurd he (List.not_mem_nil _)
          · try dsimp only
            refine noCards_append (noCards_cons rfl ?_) ?_
            · intro e he; exact absurd he (List.not_mem_nil _)
            · exact noCards_ite_cheese _ _

theorem noCards_handleSwap (r : Room) (a b : Int) (now : Nat) :
    noCards (handleSwap r a b now).events := by
  unfold handleSwap
  split
  · intro e he; exact absurd he (List.not_mem_nil _)
  · split
    · intro e he; exact absurd he (List.not_mem_nil _)
    · split
      · intro e he; exact absurd he (List.not_mem_nil _)
      · split
        · intro e he; exact absurd he (List.not_mem_nil _)
        · split
          · intro e he; exact absurd he (List.not_mem_nil _)
          · split
            · intro e he; exact absurd he (List.not_mem_nil _)
            · split
              · intro e he; exact absurd he (List.not_mem_nil _)
              · split
                · intro e he; exact absurd he (List.not_mem_nil _)
                · dsimp only
                  refine noCards_cons rfl ?_
                  exact noCards_advanceTurn _ _

theorem noCards_handleStealCheese (r : Room) (a b : Int) (now : Nat) :
    noCards (handleStealCheese r a b now).events := by
  unfold handleStealCheese
  split
  · intro e he; exact absurd he (List.not_mem_nil _)
  · split
    · intro e he; exact absurd he (List.not_mem_nil _)
    · split
      · intro e he; exact absurd he (List.not_mem_nil _)
      · split
        · intro e he; exact absurd he (List.not_mem_nil _)
        · split
          · intro e he; exact absurd he (List.not_mem_nil _)
          · split
            · intro e he; exact absurd he (List.not_mem_nil _)
            · split
              · intro e he; exact absurd he (List.not_mem_nil _)
              · split
                · intro e he; exact absurd he (List.not_mem_nil _)
                · split
                  · intro e he; exact absurd he (List.not_mem_nil _)
                  · split
                    · intro e he; exact absurd he (List.not_mem_nil _)
                    · dsimp only
                      refine noCards_cons rfl (noCards_cons rfl ?_)
                      exact noCards_advanceTurn _ _

theorem revealStep_cardBySeat (r : Room) (s : Int) :
    (revealStep r s).1.cardBySeat = r.cardBySeat := by
  unfold revealStep
  split
  · rfl
  · dsimp only
    rw [mapGame_cardBySeat]
    split <;> split <;> first
      | exact elimPair_cardBySeat _ _
      | rfl

theorem cardsOk_reveal_head (r : Room) (seat : Int) :
    ∀ s c, (s, c) ∈ eventCards (Event.reveal seat (lookupCard r.cardBySeat seat)) →
      Event.reveal seat (lookupCard r.cardBySeat seat) = Event.reveal s (some c) ∧
      lookupCard r.cardBySeat s = some c := by
  intro s c hsc
  cases hl : lookupCard r.cardBySeat seat with
  | none => rw [hl] at hsc; exact absurd hsc (List.not_mem_nil _)
  | some c0 =>
    rw [hl] at hsc
    simp only [eventCards, List.mem_singleton, Prod.mk.injEq] at hsc
    obtain ⟨rfl, rfl⟩ := hsc
    exact ⟨rfl, hl⟩

theorem cardsOk_revealStep (r : Room) (s : Int) :
    cardsOk r (revealStep r s).2 := by
  unfold revealStep
  split
  · intro e he; exact absurd he (List.not_mem_nil _)
  · dsimp only
    refine cardsOk_cons (cardsOk_reveal_head r s) ?_
    apply cardsOk_of_noCards
    split <;> split <;> first
      | exact noCards_elimPair _ _
      | (intro e he; exact absurd he (List.not_mem_nil _))

theorem revealFold_facts (r : Room) (l : List Int) :
    (revealFold r l).1.cardBySeat = r.cardBySeat ∧
    cardsOk r (revealFold r l).2 := by
  induction l generalizing r with
  | nil => exact ⟨rfl, fun e he => absurd he (List.not_mem_nil _)⟩
  | cons s rest ih =>
    obtain ⟨ih1, ih2⟩ := ih (revealStep r s).1
    refine ⟨?_, ?_⟩
    · show (revealFold (revealStep r s).1 rest).1.cardBySeat = r.cardBySeat
      rw [ih1, revealStep_cardBySeat]
    · show cardsOk r ((revealStep r s).2 ++ (revealFold (revealStep r s).1 rest).2)
      refine cardsOk_append (cardsOk_revealStep r s) ?_
      exact cardsOk_congr (revealStep_cardBySeat r s) ih2

theorem cardsOk_startRevealSequence (r : Room) :
    cardsOk r (startRevealSequence r).events := by
  unfold startRevealSequence
  split
  · intro e he; exact absurd he (List.not_mem_nil _)
  · dsimp only
    refine cardsOk_append (cardsOk_append
        (cardsOk_of_noCards (noCards_phaseEvent _) _) ?_)
      (cardsOk_of_noCards (noCards_checkRoundEnd _) _)
    exact cardsOk_congr (mapGame_cardBySeat r _) (revealFold_facts _ _).2

theorem cardsOk_handleStartReveal (r : Room) (ds : Int) :
    cardsOk r (handleStartReveal r ds).events := by
  unfold handleStartReveal
  split
  · intro e he; exact absurd he (List.not_mem_nil _)
  · split
    · intro e he; exact absurd he (List.not_mem_nil _)
    · split
      · intro e he; exact absurd he (List.not_mem_nil _)
      · exact cardsOk_startRevealSequence _

theorem cardsOk_handleDrink (r : Room) (seat : Int) (now : Nat) :
    cardsOk r (handleDrink r seat now).events := by
  unfold handleDrink
  split
  · intro e he; exact absurd he (List.not_mem_nil _)
  · split
    · intro e he; exact absurd he (List.not_mem_nil _)
    · split
      · intro e he; exact absurd he (List.not_mem_nil _)
      · split
        · intro e he; exact absurd he (List.not_mem_nil _)
        · dsimp only
          refine cardsOk_cons (cardsOk_reveal_head r seat) ?_
          refine cardsOk_append ?_
            (cardsOk_of_noCards (noCards_advanceTurn _ _) _)
          apply cardsOk_of_noCards
          split <;> split <;> first
            | exact noCards_elimPair _ _
            | (intro e he; exact absurd he (List.not_mem_nil _))

theorem cardsOk_handleTurnTimeout (r : Room) (now : Nat) :
    cardsOk r (handleTurnTimeout r now).events := by
  unfold handleTurnTimeout
  split
  · intro e he; exact absurd he (List.not_mem_nil _)
  · split
    · exact cardsOk_handleDrink _ _ _
    · intro e he; exact absurd he (List.not_mem_nil _)

theorem noCards_startGame (r : Room) (dealerIdx : Nat) :
    noCards (startGame r dealerIdx).events := by
  unfold startGame
  dsimp only
  exact noCards_phaseEvent _

theorem noCards_updateSettings (r : Room) (pid : String) (patch : SettingsPatch) :
    noCards (updateSettings r pid patch).events := by
  unfold updateSettings
  split
  · intro e he; exact absurd he (List.not_mem_nil _)
  · split
    · intro e he; exact absurd he (List.not_mem_nil _)
    · intro e he
      rcases List.mem_singleton.mp he with rfl
      rfl

theorem noCards_setPlayerReady (r : Room) (pid : String) (ready : Bool) :
    noCards (setPlayerReady r pid ready).2 := by
  unfold setPlayerReady
  split
  · intro e he; exact absurd he (List.not_mem_nil _)
  · intro e he
    rcases List.mem_singleton.mp he with rfl
    rfl

theorem noCards_removePlayer (r : Room) (pid : String) :
    noCards (removePlayer r pid).2 := by
  unfold removePlayer
  split
  · intro e he; exact absurd he (List.not_mem_nil _)
  · intro e he
    rcases List.mem_singleton.mp he with rfl
    rfl

theorem noCards_reconnectPlayer (r : Room) (token : String) (ws : Nat) :
    noCards (reconnectPlayer r token ws).2.1 := by
  unfold reconnectPlayer
  split
  · intro e he
    rcases List.mem_singleton.mp he with rfl
    rfl
  · intro e he; exact absurd he (List.not_mem_nil _)

theorem noCards_checkGameEnd (r : Room) : noCards (checkGameEnd r).events := by
  unfold checkGameEnd
  split
  · intro e he; exact absurd he (List.not_mem_nil _)
  · split
    · exact noCards_endGame _
    · intro e he; exact absurd he (List.not_mem_nil _)

theorem noCards_checkDisconnectTimeout (r : Room) (pid : String) (now : Nat) :
    noCards (checkDisconnectTimeout r pid now).events := by
  unfold checkDisconnectTimeout
  split
  · intro e he; exact absurd he (List.not_mem_nil _)
  · split
    · intro e he; exact absurd he (List.not_mem_nil _)
    · split
      · split
        · split
          · refine noCards_append (noCards_removePlayer _ _) ?_
            intro e he
            rcases List.mem_singleton.mp he with rfl
            rfl
          · exact noCards_checkGameEnd _
        · dsimp only
          exact noCards_removePlayer _ _
      · intro e he; exact absurd he (List.not_mem_nil _)

theorem noCards_handlePlayerLeave (r : Room) (pid : String) :
    noCards (handlePlayerLeave r pid).events := by
  unfold handlePlayerLeave
  split
  · intro e he; exact absurd he (List.not_mem_nil _)
  · dsimp only
    split
    · refine noCards_cons rfl (noCards_append (noCards_removePlayer _ _) ?_)
      refine noCards_cons rfl ?_
      exact noCards_checkVoteResolution _
    · refine noCards_cons rfl ?_
      exact noCards_removePlayer _ _

theorem noCards_joinStep (r : Room) (token pid name : String) (avatarId : Nat)
    (sessionId : String) (ws : Nat) :
    noCards (joinStep r token pid name avatarId sessionId ws).2 := by
  unfold joinStep
  dsimp only
  split
  · refine noCards_append (noCards_reconnectPlayer _ _ _) ?_
    intro e he
    rcases List.mem_singleton.mp he with rfl
    rfl
  · split
    · intro e he
      rcases List.mem_singleton.mp he with rfl
      rfl
    · intro e he
      rcases List.mem_cons.mp he with rfl | he2
      · rfl
      · rcases List.mem_singleton.mp he2 with rfl
        rfl

theorem noCards_handleDisconnectedDealerSetup (r : Room) (sh : List Int)
    (co : List Bool) (chs : List Int) :
    noCards (handleDisconnectedDealerSetup r sh co chs).events := by
  unfold handleDisconnectedDealerSetup
  split
  · intro e he; exact absurd he (List.not_mem_nil _)
  · split
    · intro e he; exact absurd he (List.not_mem_nil _)
    · dsimp only
      split
      · exact noCards_endGame _
      · exact noCards_handleDealerSet _ _ _ _

-- ==========================================
-- C1: the disconnect path and the full dispatch
-- ==========================================

theorem noCards_disconnectVotePart (r : Room) (s : Int) :
    noCards (disconnectVotePart r s).2 := by
  unfold disconnectVotePart
  split
  · dsimp only
    exact noCards_cons rfl (noCards_checkVoteResolution _)
  · intro e he; exact absurd he (List.not_mem_nil _)

theorem disconnectVotePart_cards (r : Room) (s : Int) :
    ((disconnectVotePart r s).1.cardBySeat = r.cardBySeat ∧
      (disconnectVotePart r s).1.game = r.game) ∨
    (disconnectVotePart r s).1.game = none := by
  unfold disconnectVotePart
  split
  · dsimp only
    unfold checkVoteResolution
    split
    · left; exact ⟨rfl, rfl⟩
    · try dsimp only
      split
      · right
        dsimp only
        unfold returnToLobby
        rfl
      · left; exact ⟨rfl, rfl⟩
  · left; exact ⟨rfl, rfl⟩

theorem disconnectTurnPart_cards (r : Room) (s : Int) (now : Nat) :
    (disconnectTurnPart r s now).cardBySeat = r.cardBySeat ∧
    (disconnectTurnPart r s now).game.map (fun g => g.phase) =
      r.game.map (fun g => g.phase) := by
  unfold disconnectTurnPart
  split
  · split
    · exact ⟨setTurnDeadline_cardBySeat r now, setTurnDeadline_game_phase r now⟩
    · exact ⟨rfl, rfl⟩
  · exact ⟨rfl, rfl⟩

theorem disconnectTurnPart_none (r : Room) (s : Int) (now : Nat)
    (h : r.game = none) : disconnectTurnPart r s now = r := by
  simp [disconnectTurnPart, h]

theorem disconnectDealerSetupPart_none (r : Room) (s : Int)
    (sh : List Int) (co : List Bool) (chs : List Int)
    (h : r.game = none) : disconnectDealerSetupPart r s sh co chs = pureOut r := by
  simp [disconnectDealerSetupPart, h]

theorem disconnectRevealPart_none (r : Room) (s : Int)
    (h : r.game = none) : disconnectRevealPart r s = pureOut r := by
  simp [disconnectRevealPart, h]

theorem handleDealerSet_room_cases (r : Room) (ds : Int)
    (asg : List (Int × CardType)) (chs : List Int) :
    (handleDealerSet r ds asg chs).room = r ∨
    (handleDealerSet r ds asg chs).room.game.map (fun g => g.phase) =
      some Phase.DEALING := by
  unfold handleDealerSet
  split
  · left; rfl
  next g hg =>
    split
    · left; rfl
    · split
      · left; rfl
      · try dsimp only
        split
        · left; rfl
        · try dsimp only
          split
          · left; rfl
          · right
            try dsimp only
            split
            · simp [mapGame, hg]
            · simp [mapGame, hg]

theorem endGame_room_cases (r : Room) :
    (endGame r).room = r ∨
    (endGame r).room.game.map (fun g => g.phase) = some Phase.GAME_END := by
  unfold endGame
  split
  · left; rfl
  next g hg =>
    right
    dsimp only
    simp [mapGame, hg]

theorem hdds_room_cases (r : Room) (sh : List Int) (co : List Bool)
    (chs : List Int) :
    (handleDisconnectedDealerSetup r sh co chs).room = r ∨
    ¬ (handleDisconnectedDealerSetup r sh co chs).room.game.map (fun g => g.phase) =
        some Phase.AWAITING_REVEAL := by
  unfold handleDisconnectedDealerSetup
  split
  · left; rfl
  · split
    · left; rfl
    · dsimp only
      split
      · rcases endGame_room_cases r with h | h
        · left; exact h
        · right; rw [h]; simp
      · rcases handleDealerSet_room_cases r _ _ chs with h | h
        · left; exact h
        · right; rw [h]; simp

theorem disconnectDealerSetupPart_room_cases (r : Room) (s : Int)
    (sh : List Int) (co : List Bool) (chs : List Int) :
    (disconnectDealerSetupPart r s sh co chs).room = r ∨
    ¬ (disconnectDealerSetupPart r s sh co chs).room.game.map (fun g => g.phase) =
        some Phase.AWAITING_REVEAL := by
  unfold disconnectDealerSetupPart
  split
  · split
    · exact hdds_room_cases r sh co chs
    · left; rfl
  · left; rfl

theorem noCards_disconnectDealerSetupPart (r : Room) (s : Int)
    (sh : List Int) (co : List Bool) (chs : List Int) :
    noCards (disconnectDealerSetupPart r s sh co chs).events := by
  unfold disconnectDealerSetupPart
  split
  · split
    · exact noCards_handleDisconnectedDealerSetup _ _ _ _
    · intro e he; exact absurd he (List.not_mem_nil _)
  · intro e he; exact absurd he (List.not_mem_nil _)

theorem disconnectRevealPart_not_awaiting (r : Room) (s : Int)
    (h : ¬ r.game.map (fun g => g.phase) = some Phase.AWAITING_REVEAL) :
    disconnectRevealPart r s = pureOut r := by
  unfold disconnectRevealPart
  cases hg : r.game with
  | none => rfl
  | some g =>
    rw [hg] at h
    simp only [Option.map] at h
    have h2 : g.phase ≠ Phase.AWAITING_REVEAL := by
      intro hc
      exact h (by rw [hc])
    simp [h2]

theorem cardsOk_disconnectRevealPart (r : Room) (s : Int) :
    cardsOk r (disconnectRevealPart r s).events := by
  unfold disconnectRevealPart
  split
  · split
    · exact cardsOk_startRevealSequence r
    · intro e he; exact absurd he (List.not_mem_nil _)
  · intro e he; exact absurd he (List.not_mem_nil _)

theorem cardsOk_disconnectTail (r r1 : Room) (s : Int) (now : Nat)
    (sh : List Int) (co : List Bool) (chs : List Int) (evs0 : List Event)
    (h0 : noCards evs0) (hcb : r1.cardBySeat = r.cardBySeat) :
    cardsOk r
      (evs0 ++ (disconnectVotePart r1 s).2 ++
        (disconnectDealerSetupPart
          (disconnectTurnPart (disconnectVotePart r1 s).1 s now) s sh co chs).events ++
        (disconnectRevealPart
          (disconnectDealerSetupPart
            (disconnectTurnPart (disconnectVotePart r1 s).1 s now) s sh co chs).room
          s).events) := by
  refine cardsOk_append (cardsOk_of_noCards
    (noCards_append (noCards_append h0 (noCards_disconnectVotePart _ _))
      (noCards_disconnectDealerSetupPart _ _ _ _ _)) r) ?_
  rcases disconnectVotePart_cards r1 s with ⟨hvc, _⟩ | hvnone
  · obtain ⟨htc, _⟩ := disconnectTurnPart_cards (disconnectVotePart r1 s).1 s now
    rcases disconnectDealerSetupPart_room_cases
        (disconnectTurnPart (disconnectVotePart r1 s).1 s now) s sh co chs with hD | hD
    · have hcb4 : (disconnectDealerSetupPart
          (disconnectTurnPart (disconnectVotePart r1 s).1 s now)
          s sh co chs).room.cardBySeat = r.cardBySeat := by
        rw [hD, htc, hvc, hcb]
      exact cardsOk_congr hcb4 (cardsOk_disconnectRevealPart _ s)
    · rw [disconnectRevealPart_not_awaiting _ s hD]
      intro e he; exact absurd he (List.not_mem_nil _)
  · rw [disconnectTurnPart_none (disconnectVotePart r1 s).1 s now hvnone,
      disconnectDealerSetupPart_none _ s sh co chs hvnone]
    dsimp only [pureOut]
    rw [disconnectRevealPart_none _ s hvnone]
    intro e he; exact absurd he (List.not_mem_nil _)

theorem cardsOk_disconnectPlayer (r : Room) (pid : String) (now : Nat)
    (sh : List Int) (co : List Bool) (chs : List Int) :
    cardsOk r (disconnectPlayer r pid now sh co chs).events := by
  unfold disconnectPlayer
  split
  · intro e he; exact absurd he (List.not_mem_nil _)
  next conn hfc =>
    split
    · dsimp only
      apply cardsOk_of_noCards
      refine noCards_append (noCards_removePlayer _ _) ?_
      intro e he
      rcases List.mem_singleton.mp he with rfl
      rfl
    · dsimp only
      exact cardsOk_disconnectTail r _ conn.player.seat now sh co chs
        [Event.playerLeft conn.player.seat "disconnected"]
        (noCards_cons rfl (fun e he => absurd he (List.not_mem_nil _)))
        rfl

theorem noCards_wsDealerSet (r : Room) (pid : String)
    (comp : List CardType) (chs : List Int) :
    noCards (wsDealerSet r pid comp chs).events := by
  unfold wsDealerSet
  exact noCards_handleDealerSet _ _ _ _

theorem cardsOk_withError (r : Room) (o : StepOut) (h : cardsOk r o.events) :
    cardsOk r (withError o).2 := by
  unfold withError
  split
  · refine cardsOk_append h (cardsOk_of_noCards ?_ r)
    intro e he
    rcases List.mem_singleton.mp he with rfl
    rfl
  · exact h

/-- C1: no outbound event of any engine step carries a card identity
except a REVEAL, and a REVEAL's card is exactly the hidden card stored
for the single seat it names in the pre-step room state; dealer-preview
broadcasts carry only the seat and an assigned flag, never the card. -/
theorem secret_containment (r : Room) (now : Nat) (op : Op) :
    cardsOk r (step r now op).2 ∧
    (∀ pid s ct, (step r now (Op.dealerPreviewOp pid s ct)).2 = [] ∨
      (step r now (Op.dealerPreviewOp pid s ct)).2 =
        [Event.dealerPreview s ct.isSome]) := by
  constructor
  · cases op with
    | join token pid name avatarId sessionId ws =>
      exact cardsOk_of_noCards (noCards_joinStep r token pid name avatarId sessionId ws) r
    | ready pid rdy =>
      exact cardsOk_of_noCards (noCards_setPlayerReady r pid rdy) r
    | startGameOp pid dealerIdx =>
      simp only [step]
      split
      · intro e he
        rcases List.mem_singleton.mp he with rfl
        intro s c hsc
        exact absurd hsc (List.not_mem_nil _)
      · exact cardsOk_withError r _ (cardsOk_of_noCards (noCards_startGame r dealerIdx) r)
    | updateSettingsOp pid patch =>
      exact cardsOk_withError r _ (cardsOk_of_noCards (noCards_updateSettings r pid patch) r)
    | actionDrink pid =>
      exact cardsOk_withError r _ (cardsOk_handleDrink r (yourSeat r pid) now)
    | actionSwap pid targetSeat =>
      exact cardsOk_withError r _
        (cardsOk_of_noCards (noCards_handleSwap r (yourSeat r pid) targetSeat now) r)
    | actionStealCheese pid targetSeat =>
      exact cardsOk_withError r _
        (cardsOk_of_noCards (noCards_handleStealCheese r (yourSeat r pid) targetSeat now) r)
    | dealerSetOp pid comp cheeseShuffle =>
      exact cardsOk_withError r _
        (cardsOk_of_noCards (noCards_wsDealerSet r pid comp cheeseShuffle) r)
    | dealerPreviewOp pid seat cardType =>
      simp only [step]
      apply cardsOk_of_noCards
      cases hg : r.game with
      | none => intro e he; exact absurd he (List.not_mem_nil _)
      | some g =>
        dsimp only
        split
        · intro e he
          rcases List.mem_singleton.mp he with rfl
          rfl
        · intro e he; exact absurd he (List.not_mem_nil _)
    | startRevealOp pid =>
      exact cardsOk_withError r _ (cardsOk_handleStartReveal r (yourSeat r pid))
    | voteRematch pid v =>
      simp only [step]
      split
      · exact cardsOk_withError r _
          (cardsOk_of_noCards (noCards_handleRematchVote r (yourSeat r pid) v) r)
      · intro e he; exact absurd he (List.not_mem_nil _)
    | leaveRoom pid =>
      exact cardsOk_withError r _ (cardsOk_of_noCards (noCards_handlePlayerLeave r pid) r)
    | pingOp t =>
      intro e he
      rcases List.mem_singleton.mp he with rfl
      intro s c hsc
      exact absurd hsc (List.not_mem_nil _)
    | disconnectOp pid shuffled coins cheeseShuffle =>
      exact cardsOk_withError r _
        (cardsOk_disconnectPlayer r pid now shuffled coins cheeseShuffle)
    | turnTimeoutOp =>
      exact cardsOk_withError r _ (cardsOk_handleTurnTimeout r now)
    | dealingTimerOp =>
      exact cardsOk_withError r _
        (cardsOk_of_noCards (noCards_setTurnDeadline_startTurns r now) r)
    | roundEndTimerOp =>
      exact cardsOk_withError r _ (cardsOk_of_noCards (noCards_roundEndTimerFire r) r)
    | disconnectTimeoutOp pid =>
      exact cardsOk_withError r _
        (cardsOk_of_noCards (noCards_checkDisconnectTimeout r pid now) r)
  · intro pid s ct
    simp only [step]
    cases hg : r.game with
    | none => left; rfl
    | some g =>
      dsimp only
      split
      · right; rfl
      · left; rfl

-- ==========================================
-- C5: sorted-seat machinery
-- ==========================================

theorem insertSorted_perm (x : Int) (l : List Int) :
    List.Perm (insertSorted x l) (x :: l) := by
  induction l with
  | nil => exact List.Perm.refl _
  | cons y ys ih =>
    unfold insertSorted
    split
    · exact List.Perm.refl _
    · exact ((ih.cons y).trans (List.Perm.swap x y ys)).symm.symm

theorem sortInts_perm (l : List Int) : List.Perm (sortInts l) l := by
  induction l with
  | nil => exact List.Perm.refl _
  | cons x xs ih =>
    exact (insertSorted_perm x (sortInts xs)).trans (ih.cons x)

theorem insertSorted_sorted (x : Int) (l : List Int)
    (h : List.Pairwise (fun a b => a ≤ b) l) :
    List.Pairwise (fun a b => a ≤ b) (insertSorted x l) := by
  induction l with
  | nil => exact List.pairwise_singleton _ _
  | cons y ys ih =>
    rcases List.pairwise_cons.mp h with ⟨hy, hys⟩
    unfold insertSorted
    split
    next hxy =>
      refine List.pairwise_cons.mpr ⟨?_, h⟩
      intro z hz
      rcases List.mem_cons.mp hz with rfl | hz2
      · exact hxy
      · exact le_trans hxy (hy z hz2)
    next hxy =>
      push_neg at hxy
      refine List.pairwise_cons.mpr ⟨?_, ih hys⟩
      intro z hz
      have hz2 := (insertSorted_perm x ys).mem_iff.mp hz
      rcases List.mem_cons.mp hz2 with rfl | hz3
      · exact le_of_lt hxy
      · exact hy z hz3

theorem sortInts_sorted (l : List Int) :
    List.Pairwise (fun a b => a ≤ b) (sortInts l) := by
  induction l with
  | nil => exact List.Pairwise.nil
  | cons x xs ih => exact insertSorted_sorted x (sortInts xs) ih

theorem sortInts_sorted_lt (l : List Int) (hnd : l.Nodup) :
    List.Pairwise (fun a b => a < b) (sortInts l) := by
  have h1 := sortInts_sorted l
  have h2 : (sortInts l).Nodup := ((sortInts_perm l).nodup_iff).mpr hnd
  exact (h1.and h2).imp (fun h => lt_of_le_of_ne h.1 h.2)

theorem find?_min_of_pairwise {α : Type} (R : α → α → Prop) (p : α → Bool) :
    ∀ (l : List α), List.Pairwise R l → ∀ w, l.find? p = some w →
      p w = true ∧ ∀ y ∈ l, p y = true → y = w ∨ R w y := by
  intro l
  induction l with
  | nil => intro _ w hw; simp [List.find?] at hw
  | cons a tl ih =>
    intro hp w hw
    rcases List.pairwise_cons.mp hp with ⟨ha, htl⟩
    by_cases hpa : p a = true
    · rw [List.find?_cons_of_pos _ hpa] at hw
      cases hw
      refine ⟨hpa, ?_⟩
      intro y hy _
      rcases List.mem_cons.mp hy with rfl | hy2
      · exact Or.inl rfl
      · exact Or.inr (ha y hy2)
    · rw [List.find?_cons_of_neg _ hpa] at hw
      obtain ⟨h1, h2⟩ := ih htl w hw
      refine ⟨h1, ?_⟩
      intro y hy hpy
      rcases List.mem_cons.mp hy with rfl | hy2
      · exact absurd hpy hpa
      · exact h2 y hy2 hpy

theorem find?_some_of_mem {α : Type} (p : α → Bool) :
    ∀ (l : List α) (x : α), x ∈ l → p x = true → ∃ w, l.find? p = some w := by
  intro l
  induction l with
  | nil => intro x hx; exact absurd hx (List.not_mem_nil _)
  | cons a tl ih =>
    intro x hx hpx
    by_cases hpa : p a = true
    · exact ⟨a, List.find?_cons_of_pos _ hpa⟩
    · rcases List.mem_cons.mp hx with rfl | hx2
      · exact absurd hpx hpa
      · obtain ⟨w, hw⟩ := ih x hx2 hpx
        exact ⟨w, by rw [List.find?_cons_of_neg _ hpa]; exact hw⟩

theorem find?_append_none {α : Type} (p : α → Bool) :
    ∀ (l1 l2 : List α), (∀ x ∈ l1, ¬ p x = true) →
      (l1 ++ l2).find? p = l2.find? p := by
  intro l1
  induction l1 with
  | nil => intro l2 _; rfl
  | cons a tl ih =>
    intro l2 h
    rw [List.cons_append, List.find?_cons_of_neg _ (h a (List.mem_cons_self a tl))]
    exact ih l2 (fun x hx => h x (List.mem_cons_of_mem a hx))

theorem sorted_le_getLast :
    ∀ (l : List Int), List.Pairwise (fun a b => a < b) l →
      ∀ (h : l ≠ []) (x : Int), x ∈ l → x ≤ l.getLast h := by
  intro l
  induction l with
  | nil => intro _ h; exact absurd rfl h
  | cons a tl ih =>
    intro hp h x hx
    rcases List.pairwise_cons.mp hp with ⟨ha, htl⟩
    cases tl with
    | nil =>
      rcases List.mem_singleton.mp hx with rfl
      rfl
    | cons b tl2 =>
      rw [List.getLast_cons (by simp)]
      rcases List.mem_cons.mp hx with rfl | hx2
      · exact le_of_lt (ha _ (List.getLast_mem _))
      · exact ih htl (by simp) x hx2

theorem takeWhile_length_mono (p q : Int → Bool)
    (hpq : ∀ x, p x = true → q x = true) :
    ∀ (l : List Int), (l.takeWhile p).length ≤ (l.takeWhile q).length := by
  intro l
  induction l with
  | nil => exact Nat.le_refl _
  | cons a tl ih =>
    by_cases hpa : p a = true
    · rw [List.takeWhile_cons_of_pos hpa, List.takeWhile_cons_of_pos (hpq a hpa)]
      exact Nat.succ_le_succ ih
    · rw [List.takeWhile_cons_of_neg (by simpa using hpa)]
      exact Nat.zero_le _

theorem mem_dropWhile_gt (t : Int) :
    ∀ (l : List Int), List.Pairwise (fun a b => a < b) l →
      ∀ x ∈ l.dropWhile (fun s => decide (s ≤ t)), t < x := by
  intro l
  induction l with
  | nil => intro _ x hx; simp at hx
  | cons a tl ih =>
    intro hp x hx
    rcases List.pairwise_cons.mp hp with ⟨ha, htl⟩
    by_cases hat : a ≤ t
    · rw [List.dropWhile_cons_of_pos (by simpa using hat)] at hx
      exact ih htl x hx
    · rw [List.dropWhile_cons_of_neg (by simpa using hat)] at hx
      push_neg at hat
      rcases List.mem_cons.mp hx with rfl | hx2
      · exact hat
      · exact lt_trans hat (ha x hx2)

theorem mem_dropWhile_ge (t : Int) :
    ∀ (l : List Int), List.Pairwise (fun a b => a < b) l →
      ∀ x ∈ l.dropWhile (fun s => decide (s < t)), t ≤ x := by
  intro l
  induction l with
  | nil => intro _ x hx; simp at hx
  | cons a tl ih =>
    intro hp x hx
    rcases List.pairwise_cons.mp hp with ⟨ha, htl⟩
    by_cases hat : a < t
    · rw [List.dropWhile_cons_of_pos (by simpa using hat)] at hx
      exact ih htl x hx
    · rw [List.dropWhile_cons_of_neg (by simpa using hat)] at hx
      push_neg at hat
      rcases List.mem_cons.mp hx with rfl | hx2
      · exact hat
      · exact le_of_lt (lt_of_le_of_lt hat (ha x hx2))

/-- Cyclic precedence of seats walked clockwise from `t`: seats above
`t` come first in ascending order, then seats below `t` in ascending
order. -/
def keyLt (t a b : Int) : Prop :=
  (t < a ∧ t < b ∧ a < b) ∨ (t < a ∧ b < t) ∨ (a < t ∧ b < t ∧ a < b)

theorem keyLt_asymm (t a b : Int) (h1 : keyLt t a b) (h2 : keyLt t b a) :
    False := by
  rcases h1 with ⟨_, _, h1⟩ | ⟨ha, hb⟩ | ⟨_, _, h1⟩ <;>
    rcases h2 with ⟨_, _, h2⟩ | ⟨ha2, hb2⟩ | ⟨_, _, h2⟩ <;> omega

theorem chain_find_gt (pre : List Int) :
    ∀ (l : List Int), List.Pairwise (fun a b => a < b) l →
      (∀ p ∈ pre, ∀ q ∈ l, p < q) →
      List.Chain' (fun a b =>
        (pre ++ l).find? (fun s => decide (a < s)) = some b) l := by
  intro l
  induction l generalizing pre with
  | nil => intro _ _; exact List.chain'_nil
  | cons a tl ih =>
    intro hp hpre
    cases tl with
    | nil => exact List.chain'_singleton _
    | cons b tl2 =>
      rcases List.pairwise_cons.mp hp with ⟨ha, htl⟩
      refine List.chain'_cons.mpr ⟨?_, ?_⟩
      · rw [find?_append_none _ pre (a :: b :: tl2) ?_]
        · rw [List.find?_cons_of_neg _ (by simp), List.find?_cons_of_pos _ ?_]
          simp [ha b (List.mem_cons_self _ _)]
        · intro x hx
          simp only [decide_eq_true_eq]
          push_neg
          exact le_of_lt (hpre x hx a (List.mem_cons_self _ _))
      · have := ih (pre ++ [a]) htl ?_
        · rw [List.append_assoc] at this
          simpa using this
        · intro p hp2 q hq
          rcases List.mem_append.mp hp2 with hp3 | hp3
          · exact hpre p hp3 q (List.mem_cons_of_mem a hq)
          · rcases List.mem_singleton.mp hp3 with rfl
            exact ha q hq

theorem find?_of_mem_nodup :
    ∀ (l : List PlayerConn) (s : Int),
      (l.map (fun c => c.player.seat)).Nodup →
      ∀ c ∈ l, c.player.seat = s →
        l.find? (fun c => decide (c.player.seat = s)) = some c := by
  intro l
  induction l with
  | nil => intro s _ c hc; exact absurd hc (List.not_mem_nil _)
  | cons a tl ih =>
    intro s hnd c hc hcs
    rcases List.mem_cons.mp hc with rfl | hc2
    · exact List.find?_cons_of_pos _ (by simpa using hcs)
    · have hne : ¬ a.player.seat = s := by
        intro hs
        have : c.player.seat ∈ tl.map (fun c => c.player.seat) :=
          List.mem_map.mpr ⟨c, hc2, rfl⟩
        rw [hcs, ← hs] at this
        exact (List.nodup_cons.mp (by simpa using hnd)).1 this
      rw [List.find?_cons_of_neg _ (by simpa using hne)]
      exact ih s (List.nodup_cons.mp (by simpa using hnd)).2 c hc2 hcs

theorem seats_nodup_alive (r : Room)
    (hnd : (r.players.map (fun c => c.player.seat)).Nodup) :
    (((r.players.filter (fun c => c.player.alive)).map
      (fun c => c.player.seat))).Nodup :=
  List.Nodup.sublist (List.Sublist.map _ (List.filter_sublist _)) hnd

theorem mem_getAliveSeats (r : Room)
    (hnd : (r.players.map (fun c => c.player.seat)).Nodup) (s : Int) :
    s ∈ getAliveSeats r ↔ isPlayerAlive r s = true := by
  unfold getAliveSeats
  rw [(sortInts_perm _).mem_iff]
  constructor
  · intro hs
    rcases List.mem_map.mp hs with ⟨c, hc, hcs⟩
    rcases List.mem_filter.mp hc with ⟨hcp, hca⟩
    unfold isPlayerAlive findConnBySeat
    rw [find?_of_mem_nodup r.players s hnd c hcp hcs]
    simpa using hca
  · intro hs
    unfold isPlayerAlive findConnBySeat at hs
    cases hf : r.players.find? (fun c => decide (c.player.seat = s)) with
    | none => rw [hf] at hs; simp at hs
    | some c =>
      rw [hf] at hs
      have hcp := List.mem_of_find?_eq_some hf
      have hcs : c.player.seat = s := by simpa using List.find?_some hf
      exact List.mem_map.mpr ⟨c, List.mem_filter.mpr ⟨hcp, by simpa using hs⟩, hcs⟩

theorem getAliveSeats_sorted_lt (r : Room)
    (hnd : (r.players.map (fun c => c.player.seat)).Nodup) :
    List.Pairwise (fun a b => a < b) (getAliveSeats r) :=
  sortInts_sorted_lt _ (seats_nodup_alive r hnd)

theorem find?_cons_pos {α : Type} (p : α → Bool) (a : α) (l : List α)
    (h : p a = true) : (a :: l).find? p = some a :=
  List.find?_cons_of_pos _ h

theorem find?_cons_neg {α : Type} (p : α → Bool) (a : α) (l : List α)
    (h : p a = false) : (a :: l).find? p = l.find? p :=
  List.find?_cons_of_neg _ (by simp [h])

theorem advanceSearch_spec (r : Room) (acted : List Int) (t d : Int) :
    ∀ (l : List Int) (fuel : Nat) (cur : Int),
      l.head? = some cur →
      (∀ x ∈ l, isPlayerAlive r x = true) →
      List.Chain' (fun a b => getNextAliveSeat r a = b) l →
      d ∈ l → t ∉ l → l.length ≤ fuel →
      ∀ w, l.find? (fun x => decide (x = d) || !(decide (x ∈ acted))) = some w →
      advanceSearch r acted t d fuel cur = w := by
  intro l
  induction l with
  | nil => intro fuel cur hh; simp at hh
  | cons a rest ih =>
    intro fuel cur hh halive hchain hd ht hlen w hw
    have hcur : a = cur := by simpa using hh
    subst hcur
    cases fuel with
    | zero => simp at hlen
    | succ f =>
      simp only [advanceSearch]
      by_cases hcond : a ≠ d ∧ (a ∈ acted ∨ isPlayerAlive r a = false)
      · rw [if_pos hcond]
        have haa : isPlayerAlive r a = true := halive a (List.mem_cons_self _ _)
        have hacted : a ∈ acted := by
          rcases hcond.2 with h | h
          · exact h
          · rw [haa] at h; exact absurd h (by simp)
        have hstop : (fun x => decide (x = d) || !(decide (x ∈ acted))) a = false := by
          simp [hcond.1, hacted]
        rw [find?_cons_neg (fun x => decide (x = d) || !(decide (x ∈ acted))) _ _ hstop] at hw
        have hdrest : d ∈ rest := by
          rcases List.mem_cons.mp hd with rfl | h
          · exact absurd rfl hcond.1
          · exact h
        cases rest with
        | nil => exact absurd hdrest (List.not_mem_nil _)
        | cons b rest2 =>
          have hnext : getNextAliveSeat r a = b := (List.chain'_cons.mp hchain).1
          try dsimp only
          rw [hnext]
          have hbt : ¬ b = t := by
            intro hbt
            exact ht (hbt ▸ List.mem_cons_of_mem a (List.mem_cons_self _ _))
          rw [if_neg hbt]
          exact ih f b rfl
            (fun x hx => halive x (List.mem_cons_of_mem a hx))
            (List.chain'_cons.mp hchain).2 hdrest
            (fun hx => ht (List.mem_cons_of_mem a hx))
            (Nat.le_of_succ_le_succ hlen) w hw
      · rw [if_neg hcond]
        have hstop : (fun x => decide (x = d) || !(decide (x ∈ acted))) a = true := by
          push_neg at hcond
          by_cases had : a = d
          · simp [had]
          · have h2 := hcond had
            simp [h2.1]
        rw [find?_cons_pos (fun x => decide (x = d) || !(decide (x ∈ acted))) _ _ hstop] at hw
        exact Option.some.inj hw

theorem mem_rot (t : Int) (A : List Int)
    (hA : List.Pairwise (fun a b => a < b) A) (x : Int) (hx : x ∈ A)
    (hxt : x ≠ t) :
    x ∈ A.dropWhile (fun s => decide (s ≤ t)) ++
        A.takeWhile (fun s => decide (s < t)) := by
  rw [List.mem_append]
  by_cases hlt : x < t
  · right
    have hsplit : A.takeWhile (fun s => decide (s < t)) ++
        A.dropWhile (fun s => decide (s < t)) = A :=
      List.takeWhile_append_dropWhile _ _
    rw [← hsplit] at hx
    rcases List.mem_append.mp hx with h | h
    · exact h
    · exact absurd (mem_dropWhile_ge t A hA x h) (by omega)
  · left
    have hgt : t < x := by omega
    have hsplit : A.takeWhile (fun s => decide (s ≤ t)) ++
        A.dropWhile (fun s => decide (s ≤ t)) = A :=
      List.takeWhile_append_dropWhile _ _
    rw [← hsplit] at hx
    rcases List.mem_append.mp hx with h | h
    · exfalso
      have h2 := List.mem_takeWhile_imp h
      simp at h2
      omega
    · exact h

theorem not_mem_rot (t : Int) (A : List Int)
    (hA : List.Pairwise (fun a b => a < b) A) :
    t ∉ A.dropWhile (fun s => decide (s ≤ t)) ++
        A.takeWhile (fun s => decide (s < t)) := by
  intro ht
  rcases List.mem_append.mp ht with h | h
  · exact absurd (mem_dropWhile_gt t A hA t h) (by omega)
  · have h2 := List.mem_takeWhile_imp h
    simp at h2

theorem rot_subset (t : Int) (A : List Int) (x : Int)
    (hx : x ∈ A.dropWhile (fun s => decide (s ≤ t)) ++
        A.takeWhile (fun s => decide (s < t))) :
    x ∈ A := by
  rcases List.mem_append.mp hx with h | h
  · exact (List.dropWhile_sublist _).subset h
  · exact (List.takeWhile_sublist _).subset h

theorem rot_length (t : Int) (A : List Int) :
    (A.dropWhile (fun s => decide (s ≤ t)) ++
     A.takeWhile (fun s => decide (s < t))).length ≤ A.length := by
  rw [List.length_append]
  have h1 : (A.takeWhile (fun s => decide (s < t))).length ≤
      (A.takeWhile (fun s => decide (s ≤ t))).length := by
    refine takeWhile_length_mono _ _ ?_ A
    intro x hx
    simp at hx ⊢
    omega
  have h2 : (A.takeWhile (fun s => decide (s ≤ t))).length +
      (A.dropWhile (fun s => decide (s ≤ t))).length = A.length := by
    rw [← List.length_append, List.takeWhile_append_dropWhile]
  omega

theorem chain_next_alive (r : Room) (t : Int)
    (hA : List.Pairwise (fun a b => a < b) (getAliveSeats r)) :
    List.Chain' (fun a b => getNextAliveSeat r a = b)
      ((getAliveSeats r).dropWhile (fun s => decide (s ≤ t)) ++
       (getAliveSeats r).takeWhile (fun s => decide (s < t))) := by
  by_cases hAnil : getAliveSeats r = []
  · rw [hAnil]
    simp
  have hchainF := chain_find_gt [] (getAliveSeats r) hA (by intro p hp; simp at hp)
  simp only [List.nil_append] at hchainF
  have hchainN : List.Chain' (fun a b => getNextAliveSeat r a = b)
      (getAliveSeats r) := by
    refine List.Chain'.imp ?_ hchainF
    intro a b h
    unfold getNextAliveSeat
    rw [if_neg (by simpa [List.isEmpty_iff] using hAnil)]
    rw [h]
  have hsplit1 : (getAliveSeats r).takeWhile (fun s => decide (s ≤ t)) ++
      (getAliveSeats r).dropWhile (fun s => decide (s ≤ t)) = getAliveSeats r :=
    List.takeWhile_append_dropWhile _ _
  have hsplit2 : (getAliveSeats r).takeWhile (fun s => decide (s < t)) ++
      (getAliveSeats r).dropWhile (fun s => decide (s < t)) = getAliveSeats r :=
    List.takeWhile_append_dropWhile _ _
  have hc1 : List.Chain' (fun a b => getNextAliveSeat r a = b)
      ((getAliveSeats r).dropWhile (fun s => decide (s ≤ t))) := by
    have h := hchainN
    rw [← hsplit1] at h
    exact (List.chain'_append.mp h).2.1
  have hc2 : List.Chain' (fun a b => getNextAliveSeat r a = b)
      ((getAliveSeats r).takeWhile (fun s => decide (s < t))) := by
    have h := hchainN
    rw [← hsplit2] at h
    exact (List.chain'_append.mp h).1
  refine List.chain'_append.mpr ⟨hc1, hc2, ?_⟩
  intro x hx y hy
  rw [Option.mem_def] at hx hy
  have hd_ne : (getAliveSeats r).dropWhile (fun s => decide (s ≤ t)) ≠ [] := by
    intro h; rw [h] at hx; simp at hx
  have ht_ne : (getAliveSeats r).takeWhile (fun s => decide (s < t)) ≠ [] := by
    intro h; rw [h] at hy; simp at hy
  have hlastA : (getAliveSeats r).getLast? = some x := by
    rw [← hsplit1, List.getLast?_append_of_ne_nil _ hd_ne]
    exact hx
  have hheadA : (getAliveSeats r).head? = some y := by
    rw [← hsplit2, List.head?_append_of_ne_nil _ ht_ne]
    exact hy
  have hxeq : x = (getAliveSeats r).getLast hAnil := by
    rw [List.getLast?_eq_getLast _ hAnil] at hlastA
    exact (Option.some.inj hlastA).symm
  have hxmax : ∀ z ∈ getAliveSeats r, z ≤ x := by
    intro z hz
    rw [hxeq]
    exact sorted_le_getLast (getAliveSeats r) hA hAnil z hz
  have hfind : (getAliveSeats r).find? (fun s => decide (x < s)) = none := by
    rw [List.find?_eq_none]
    intro z hz
    simp
    exact hxmax z hz
  unfold getNextAliveSeat
  rw [if_neg (by simpa [List.isEmpty_iff] using hAnil)]
  rw [hfind]
  rw [List.headD_eq_head?_getD, hheadA]
  rfl

theorem rot_head (r : Room) (t : Int)
    (hA : List.Pairwise (fun a b => a < b) (getAliveSeats r))
    (hne : (getAliveSeats r).dropWhile (fun s => decide (s ≤ t)) ++
           (getAliveSeats r).takeWhile (fun s => decide (s < t)) ≠ []) :
    ((getAliveSeats r).dropWhile (fun s => decide (s ≤ t)) ++
     (getAliveSeats r).takeWhile (fun s => decide (s < t))).head? =
      some (getNextAliveSeat r t) := by
  have hAnil : getAliveSeats r ≠ [] := by
    intro h
    apply hne
    rw [h]
    rfl
  have hsplit1 : (getAliveSeats r).takeWhile (fun s => decide (s ≤ t)) ++
      (getAliveSeats r).dropWhile (fun s => decide (s ≤ t)) = getAliveSeats r :=
    List.takeWhile_append_dropWhile _ _
  have hsplit2 : (getAliveSeats r).takeWhile (fun s => decide (s < t)) ++
      (getAliveSeats r).dropWhile (fun s => decide (s < t)) = getAliveSeats r :=
    List.takeWhile_append_dropWhile _ _
  cases hdw : (getAliveSeats r).dropWhile (fun s => decide (s ≤ t)) with
  | cons h1 tl =>
    have hmem : h1 ∈ (getAliveSeats r).dropWhile (fun s => decide (s ≤ t)) := by
      rw [hdw]
      exact List.mem_cons_self _ _
    have hgt : t < h1 := mem_dropWhile_gt t _ hA h1 hmem
    have hfind : (getAliveSeats r).find? (fun s => decide (t < s)) = some h1 := by
      rw [← hsplit1, find?_append_none]
      · rw [hdw]
        exact List.find?_cons_of_pos _ (by simpa using hgt)
      · intro z hz
        have h2 := List.mem_takeWhile_imp hz
        simp at h2 ⊢
        omega
    rw [List.cons_append]
    unfold getNextAliveSeat
    rw [if_neg (by simpa [List.isEmpty_iff] using hAnil)]
    rw [hfind]
    rfl
  | nil =>
    rw [List.nil_append]
    have ht_ne : (getAliveSeats r).takeWhile (fun s => decide (s < t)) ≠ [] := by
      intro h
      apply hne
      rw [hdw, h]
      rfl
    have hall : ∀ z ∈ getAliveSeats r, z ≤ t := by
      intro z hz
      rw [← hsplit1, hdw, List.append_nil] at hz
      have h2 := List.mem_takeWhile_imp hz
      simpa using h2
    have hfind : (getAliveSeats r).find? (fun s => decide (t < s)) = none := by
      rw [List.find?_eq_none]
      intro z hz
      simp
      exact hall z hz
    have hheadA : (getAliveSeats r).head? =
        ((getAliveSeats r).takeWhile (fun s => decide (s < t))).head? := by
      nth_rewrite 1 [← hsplit2]
      rw [List.head?_append_of_ne_nil _ ht_ne]
    unfold getNextAliveSeat
    rw [if_neg (by simpa [List.isEmpty_iff] using hAnil)]
    rw [hfind]
    rw [List.headD_eq_head?_getD, hheadA]
    cases hh : ((getAliveSeats r).takeWhile (fun s => decide (s < t))).head? with
    | none =>
      exfalso
      apply ht_ne
      simpa using hh
    | some y => rfl

theorem rot_pairwise_keyLt (t : Int) (A : List Int)
    (hA : List.Pairwise (fun a b => a < b) A) :
    List.Pairwise (keyLt t)
      (A.dropWhile (fun s => decide (s ≤ t)) ++
       A.takeWhile (fun s => decide (s < t))) := by
  rw [List.pairwise_append]
  refine ⟨?_, ?_, ?_⟩
  · refine List.Pairwise.imp_of_mem ?_
      (List.Pairwise.sublist (List.dropWhile_sublist _) hA)
    intro a b ha hb hab
    exact Or.inl ⟨mem_dropWhile_gt t A hA a ha, mem_dropWhile_gt t A hA b hb, hab⟩
  · refine List.Pairwise.imp_of_mem ?_
      (List.Pairwise.sublist (List.takeWhile_sublist _) hA)
    intro a b ha hb hab
    have ha2 := List.mem_takeWhile_imp ha
    have hb2 := List.mem_takeWhile_imp hb
    simp at ha2 hb2
    exact Or.inr (Or.inr ⟨ha2, hb2, hab⟩)
  · intro a ha b hb
    have hb2 := List.mem_takeWhile_imp hb
    simp at hb2
    exact Or.inr (Or.inl ⟨mem_dropWhile_gt t A hA a ha, hb2⟩)

/-- A seat that the spec's advancement policy may hand the turn to:
alive, not the dealer, and not yet acted this round. -/
def turnCandidate (r : Room) (g : GameState) (s : Int) : Prop :=
  isPlayerAlive r s = true ∧ s ≠ g.dealerSeat ∧ s ∉ g.actedSeats

theorem setTurnDeadline_game_phase_turn (r : Room) (now : Nat) :
    (setTurnDeadline r now).game.map (fun g => (g.phase, g.turnSeat)) =
      r.game.map (fun g => (g.phase, g.turnSeat)) := by
  unfold setTurnDeadline
  split
  · rfl
  next g hg =>
    split
    · rfl
    · simp [hg]

theorem allNonDealersActed_false (r : Room) (g : GameState) (w : Int)
    (hg : r.game = some g)
    (hw : w ∈ g.aliveSeats) (hwd : w ≠ g.dealerSeat)
    (hwa : w ∉ g.actedSeats) (hwal : isPlayerAlive r w = true)
    (hwf : w ∈ g.facedownSeats) :
    allNonDealersActed r = false := by
  unfold allNonDealersActed
  rw [hg]
  rw [← Bool.not_eq_true]
  intro hall
  rw [List.all_eq_true] at hall
  have := hall w hw
  simp [hwd, hwa, hwal, hwf] at this

/-- The cyclic walk order of `Room.advanceTurn`: the alive seats above
the current turn seat in ascending order, then the alive seats strictly
below it in ascending order. -/
def rotList (r : Room) (t : Int) : List Int :=
  (getAliveSeats r).dropWhile (fun s => decide (s ≤ t)) ++
  (getAliveSeats r).takeWhile (fun s => decide (s < t))

/-- C5: after a completed turn in phase TURNS, `advanceTurn` either
hands the turn to the smallest alive non-dealer un-acted seat greater
than the previous turn seat — wrapping to the smallest such seat
overall — and stays in TURNS, or, when no such seat remains, moves the
round to AWAITING_REVEAL. -/
theorem turn_advance_clockwise (r : Room) (g : GameState) (now : Nat)
    (hg : r.game = some g)
    (hph : g.phase = Phase.TURNS)
    (hnd : (r.players.map (fun c => c.player.seat)).Nodup)
    (htd : g.turnSeat ≠ g.dealerSeat)
    (hta : g.turnSeat ∈ g.actedSeats)
    (hda : isPlayerAlive r g.dealerSeat = true)
    (hcach : ∀ s : Int, s ∈ g.aliveSeats ↔ isPlayerAlive r s = true)
    (hfaced : ∀ s : Int, isPlayerAlive r s = true → s ∉ g.actedSeats →
      s ∈ g.facedownSeats)
    (hbet : ∀ s : Int, turnCandidate r g s → keyLt g.turnSeat s g.dealerSeat) :
    ((∀ s, ¬ turnCandidate r g s) ∧
      (advanceTurn r now).room.game.map (fun g2 => g2.phase) =
        some Phase.AWAITING_REVEAL) ∨
    (∃ s, turnCandidate r g s ∧
      (advanceTurn r now).room.game.map (fun g2 => (g2.phase, g2.turnSeat)) =
        some (Phase.TURNS, s) ∧
      ((g.turnSeat < s ∧
          ∀ s2, turnCandidate r g s2 → g.turnSeat < s2 → s ≤ s2) ∨
       ((∀ s2, turnCandidate r g s2 → s2 < g.turnSeat) ∧
        ∀ s2, turnCandidate r g s2 → s ≤ s2))) := by
  have hA : List.Pairwise (fun a b => a < b) (getAliveSeats r) :=
    getAliveSeats_sorted_lt r hnd
  have hdal : g.dealerSeat ∈ getAliveSeats r :=
    (mem_getAliveSeats r hnd _).mpr hda
  have hdrot : g.dealerSeat ∈ rotList r g.turnSeat :=
    mem_rot g.turnSeat (getAliveSeats r) hA g.dealerSeat hdal (Ne.symm htd)
  have hrotne : rotList r g.turnSeat ≠ [] := List.ne_nil_of_mem hdrot
  have hhead : (rotList r g.turnSeat).head? =
      some (getNextAliveSeat r g.turnSeat) :=
    rot_head r g.turnSeat hA hrotne
  obtain ⟨w, hw⟩ := find?_some_of_mem
    (fun x => decide (x = g.dealerSeat) || !(decide (x ∈ g.actedSeats)))
    (rotList r g.turnSeat) g.dealerSeat hdrot (by simp)
  have hwalk : advanceSearch r g.actedSeats g.turnSeat g.dealerSeat
      ((getAliveSeats r).length + 1) (getNextAliveSeat r g.turnSeat) = w :=
    advanceSearch_spec r g.actedSeats g.turnSeat g.dealerSeat
      (rotList r g.turnSeat) ((getAliveSeats r).length + 1)
      (getNextAliveSeat r g.turnSeat) hhead
      (fun x hx => (mem_getAliveSeats r hnd x).mp
        (rot_subset g.turnSeat (getAliveSeats r) x hx))
      (chain_next_alive r g.turnSeat hA) hdrot
      (not_mem_rot g.turnSeat (getAliveSeats r) hA)
      (Nat.le_succ_of_le (rot_length g.turnSeat (getAliveSeats r))) w hw
  have hmin := find?_min_of_pairwise (keyLt g.turnSeat)
    (fun x => decide (x = g.dealerSeat) || !(decide (x ∈ g.actedSeats)))
    (rotList r g.turnSeat)
    (rot_pairwise_keyLt g.turnSeat (getAliveSeats r) hA) w hw
  have hcand_rot : ∀ y, turnCandidate r g y → y ∈ rotList r g.turnSeat := by
    intro y hy
    obtain ⟨hya, hyd, hyna⟩ := hy
    have hyt : y ≠ g.turnSeat := fun h => hyna (h ▸ hta)
    exact mem_rot g.turnSeat (getAliveSeats r) hA y
      ((mem_getAliveSeats r hnd y).mpr hya) hyt
  have hcand_stop : ∀ y, turnCandidate r g y →
      (fun x => decide (x = g.dealerSeat) || !(decide (x ∈ g.actedSeats))) y
        = true := by
    intro y hy
    simp [hy.2.2]
  have hminw : ∀ y, turnCandidate r g y → y = w ∨ keyLt g.turnSeat w y := by
    intro y hy
    exact hmin.2 y (hcand_rot y hy) (hcand_stop y hy)
  have hAT : advanceTurn r now =
      (if w = g.dealerSeat ∨ allNonDealersActed r = true then awaitingReveal r
       else
         StepOut.mk
           (setTurnDeadline (mapGame r (fun g => { g with turnSeat := w })) now)
           (phaseEvent
             (setTurnDeadline (mapGame r (fun g => { g with turnSeat := w }))
               now))
           none) := by
    simp only [advanceTurn, hg]
    try dsimp only
    rw [hwalk]
  by_cases hwd : w = g.dealerSeat
  · left
    have hnone : ∀ s, ¬ turnCandidate r g s := by
      intro s hs
      rcases hminw s hs with rfl | hk
      · exact hs.2.1 hwd
      · exact keyLt_asymm _ _ _ (hbet s hs) (hwd ▸ hk)
    refine ⟨hnone, ?_⟩
    rw [hAT, if_pos (Or.inl hwd)]
    simp [awaitingReveal, mapGame, hg]
  · right
    have hwrot : w ∈ rotList r g.turnSeat := List.mem_of_find?_eq_some hw
    have hwal : isPlayerAlive r w = true :=
      (mem_getAliveSeats r hnd w).mp
        (rot_subset g.turnSeat (getAliveSeats r) w hwrot)
    have hwna : w ∉ g.actedSeats := by
      have h1 := hmin.1
      simp [hwd] at h1
      exact h1
    have hwc : turnCandidate r g w := ⟨hwal, hwd, hwna⟩
    have hand : allNonDealersActed r = false :=
      allNonDealersActed_false r g w hg ((hcach w).mpr hwal) hwd hwna hwal
        (hfaced w hwal hwna)
    refine ⟨w, hwc, ?_, ?_⟩
    · rw [hAT, if_neg (by rw [hand]; simp [hwd])]
      have h2 := setTurnDeadline_game_phase_turn
        (mapGame r (fun g => { g with turnSeat := w })) now
      dsimp only
      rw [h2]
      simp [mapGame, hg, hph]
    · by_cases hwt : g.turnSeat < w
      · left
        refine ⟨hwt, ?_⟩
        intro s2 hs2 hts2
        rcases hminw s2 hs2 with rfl | hk
        · exact le_refl _
        · rcases hk with ⟨_, _, h⟩ | ⟨_, h⟩ | ⟨h, _, _⟩ <;> omega
      · have hwt2 : w < g.turnSeat := by
          rcases lt_or_eq_of_le (not_lt.mp hwt) with h | h
          · exact h
          · exact absurd (h ▸ hta) hwna
        right
        constructor
        · intro s2 hs2
          rcases hminw s2 hs2 with rfl | hk
          · exact hwt2
          · rcases hk with ⟨h, _, _⟩ | ⟨h, _⟩ | ⟨_, h, _⟩ <;> omega
        · intro s2 hs2
          rcases hminw s2 hs2 with rfl | hk
          · exact le_refl _
          · rcases hk with ⟨_, _, h⟩ | ⟨_, h⟩ | ⟨_, _, h⟩ <;> omega

/-- A TURNS state where seat 2 (the turn seat) has just acted: dealer 1,
alive seats 0,1,2, facedown 0,1. The only remaining candidate is seat 0,
reached by wrapping. -/
def c5game : GameState :=
  { gTurns with actedSeats := [2], facedownSeats := [0, 1] }

def c5room : Room := { sampleRoom with game := some c5game }

theorem c5_alive_iff : ∀ s : Int,
    isPlayerAlive c5room s = true ↔ s = 0 ∨ s = 1 ∨ s = 2 := by
  intro s
  constructor
  · intro h
    by_cases h0 : s = 0
    · exact Or.inl h0
    by_cases h1 : s = 1
    · exact Or.inr (Or.inl h1)
    by_cases h2 : s = 2
    · exact Or.inr (Or.inr h2)
    exfalso
    have e0 : ¬ ((0 : Int) = s) := fun h' => h0 h'.symm
    have e1 : ¬ ((1 : Int) = s) := fun h' => h1 h'.symm
    have e2 : ¬ ((2 : Int) = s) := fun h' => h2 h'.symm
    simp [isPlayerAlive, findConnBySeat, c5room, sampleRoom, mkConn,
      List.find?, e0, e1, e2] at h
  · intro h
    rcases h with rfl | rfl | rfl <;> decide

theorem c5_hcach : ∀ s : Int,
    s ∈ c5game.aliveSeats ↔ isPlayerAlive c5room s = true := by
  intro s
  rw [c5_alive_iff s]
  show s ∈ ([0, 1, 2] : List Int) ↔ _
  simp

theorem c5_hfaced : ∀ s : Int, isPlayerAlive c5room s = true →
    s ∉ c5game.actedSeats → s ∈ c5game.facedownSeats := by
  intro s ha hna
  rcases (c5_alive_iff s).mp ha with rfl | rfl | rfl
  · decide
  · decide
  · exact absurd (show (2 : Int) ∈ c5game.actedSeats by decide) hna

theorem c5_hbet : ∀ s : Int, turnCandidate c5room c5game s →
    keyLt c5game.turnSeat s c5game.dealerSeat := by
  intro s hs
  rcases (c5_alive_iff s).mp hs.1 with rfl | rfl | rfl
  · exact Or.inr (Or.inr ⟨by decide, by decide, by decide⟩)
  · exact absurd rfl hs.2.1
  · exact absurd (show (2 : Int) ∈ c5game.actedSeats by decide) hs.2.2

/-- C5 witness: the advancement theorem applied to `c5room`, where the
turn wraps from seat 2 past the dealer to seat 0. -/
theorem turn_advance_clockwise_witness :
    ((∀ s, ¬ turnCandidate c5room c5game s) ∧
      (advanceTurn c5room 0).room.game.map (fun g2 => g2.phase) =
        some Phase.AWAITING_REVEAL) ∨
    (∃ s, turnCandidate c5room c5game s ∧
      (advanceTurn c5room 0).room.game.map (fun g2 => (g2.phase, g2.turnSeat)) =
        some (Phase.TURNS, s) ∧
      ((c5game.turnSeat < s ∧
          ∀ s2, turnCandidate c5room c5game s2 →
            c5game.turnSeat < s2 → s ≤ s2) ∨
       ((∀ s2, turnCandidate c5room c5game s2 → s2 < c5game.turnSeat) ∧
        ∀ s2, turnCandidate c5room c5game s2 → s ≤ s2))) :=
  turn_advance_clockwise c5room c5game 0 rfl rfl (by decide) (by decide)
    (by decide) (by decide) c5_hcach c5_hfaced c5_hbet

end InVinoMorte
